import Mathlib

/-!
Shallow embedding of the WebSocket core of the BotInterpreter server
(src/server/routes.ts): the session registry, liveness tracking, the
message router (join / speech / continuous / ping), the broadcaster and
the connection teardown paths, together with proofs of the behavioural
claims about them.

Connections are identified by natural numbers.  Dynamic JSON field
values are modelled by `JVal`; a raw client message is a record of
optional fields.  The mutable server state (the `sessions` map, the
`lastActivity` map viewed as a set, each connection closure variable
`clientSessionId`, every socket readyState and the set of tracked
clients) is a `ServerState`.  Handlers return the new state together
with a trace of observable effects: actual deliveries over sockets,
close/terminate actions, and collaborator calls (detect, translate,
persist).  Collaborator outcomes and per-connection send failures are
injected as parameters.
-/

namespace BotInterpreter

/-- Dynamic JSON-like value carried by a field of a client message. -/
inductive JVal where
  | str (s : String)
  | num (n : Int)
  | other
deriving DecidableEq, Repr

/-- JavaScript truthiness of an optional field: a missing field, the empty
string and the number zero are falsy. -/
def truthy : Option JVal → Bool
  | none => false
  | some (JVal.str s) => s ≠ ""
  | some (JVal.num n) => n ≠ 0
  | some JVal.other => true

/-- Whether a field is present and holds a number (the typeof number check). -/
def isNum : Option JVal → Bool
  | some (JVal.num _) => true
  | _ => false

/-- Whether a field is present and holds a string (the typeof string check). -/
def isStr : Option JVal → Bool
  | some (JVal.str _) => true
  | _ => false

/-- Integer content of a numeric field, defaulting to 0. -/
def getNum : Option JVal → Int
  | some (JVal.num n) => n
  | _ => 0

/-- String content of a string field, defaulting to the empty string. -/
def getStr : Option JVal → String
  | some (JVal.str s) => s
  | _ => ""

/-- Text rendering of a field value, as string interpolation would show it. -/
def jvalText : Option JVal → String
  | some (JVal.str s) => s
  | some (JVal.num n) => toString n
  | some JVal.other => "[object Object]"
  | none => "undefined"

/-- Fields of a parsed client WebSocket message; every field is optional
and dynamically typed, as on the wire. -/
structure RawData where
  type : Option JVal := none
  sessionId : Option JVal := none
  text : Option JVal := none
  speakerId : Option JVal := none
  language : Option JVal := none
  targetLanguage : Option JVal := none
  interimText : Option JVal := none
  finalSpeakerId : Option JVal := none
  targetLang : Option JVal := none
  timestamp : Option JVal := none
deriving DecidableEq, Repr

/-- Readiness state of a WebSocket (its readyState). -/
inductive WSState where
  | connecting
  | opened
  | closing
  | closed
deriving DecidableEq, Repr

/-- Message record assembled by the speech handler and handed to storage. -/
structure Message where
  sessionId : String
  speakerId : Int
  originalText : JVal
  translatedText : String
  originalLanguage : JVal
  targetLanguage : JVal
deriving DecidableEq, Repr

/-- Server-to-client event payloads. -/
inductive OutMsg where
  | errorMsg (text : String)
  | joinAck (sessionId : String)
  | translation (message : Message)
  | interim (speakerId : Int) (text : JVal)
  | pong (timestamp : Option JVal)
deriving DecidableEq, Repr

/-- Observable effects of the handlers: a delivery actually written to a
socket, a graceful close, a forced terminate, and collaborator calls, with
`persistOk` marking a storage write that succeeded. -/
inductive Effect where
  | deliver (conn : Nat) (msg : OutMsg)
  | closeConn (conn : Nat)
  | termConn (conn : Nat)
  | callDetect (text : JVal)
  | callTranslate (text source target : JVal)
  | callCreateMessage (m : Message)
  | persistOk (m : Message)
deriving DecidableEq, Repr

/-- Whether an effect is a delivery over a socket. -/
def isDeliver : Effect → Bool
  | Effect.deliver _ _ => true
  | _ => false

/-- Lookup in an association list, the JS Map get. -/
def mapGet {κ α : Type} [DecidableEq κ] : List (κ × α) → κ → Option α
  | [], _ => none
  | (k2, v) :: rest, k => if k2 = k then some v else mapGet rest k

/-- Update in an association list, the JS Map set: the first binding of the
key is replaced in place, a missing key is appended. -/
def mapSet {κ α : Type} [DecidableEq κ] : List (κ × α) → κ → α → List (κ × α)
  | [], k, v => [(k, v)]
  | (k2, v2) :: rest, k, v =>
      if k2 = k then (k2, v) :: rest else (k2, v2) :: mapSet rest k v

/-- Deletion from an association list, the JS Map delete (keys are unique
in a JS Map, so removal of every binding of the key is faithful). -/
def mapDel {κ α : Type} [DecidableEq κ] (m : List (κ × α)) (k : κ) : List (κ × α) :=
  m.filter (fun p => decide (p.1 ≠ k))

/-- JS Set add: appends the element unless already present. -/
def setAdd (l : List Nat) (c : Nat) : List Nat :=
  if c ∈ l then l else l ++ [c]

/-- Mutable server state of the WebSocket core. -/
structure ServerState where
  sessions : List (String × List Nat)
  lastActivity : List Nat
  connSession : List (Nat × String)
  readyState : List (Nat × WSState)
  clients : List Nat
deriving DecidableEq, Repr

/-- Current readyState of a connection; an untracked socket counts as closed. -/
def stateOf (st : ServerState) (c : Nat) : WSState :=
  (mapGet st.readyState c).getD WSState.closed

/-- Update of one socket readyState. -/
def setReady (st : ServerState) (c : Nat) (s : WSState) : ServerState :=
  { st with readyState := mapSet st.readyState c s }

/-- Recording of inbound activity on a connection (the lastActivity set). -/
def touchActivity (st : ServerState) (c : Nat) : ServerState :=
  { st with lastActivity := if c ∈ st.lastActivity then st.lastActivity else st.lastActivity ++ [c] }

/-- Member list of a session, empty when the entry is absent. -/
def members (st : ServerState) (sid : String) : List Nat :=
  (mapGet st.sessions sid).getD []

/-- Number of members of a session. -/
def memberCount (st : ServerState) (sid : String) : Nat :=
  (members st sid).length

/-- The safeWSend helper: writes only when the socket is open; a raising
send closes that socket (code 1011) and never propagates the error. -/
def safeWSend (fail : Nat → Bool) (st : ServerState) (c : Nat) (m : OutMsg) :
    ServerState × List Effect :=
  if stateOf st c = WSState.opened then
    if fail c then (setReady st c WSState.closing, [Effect.closeConn c])
    else (st, [Effect.deliver c m])
  else (st, [])

/-- One member of a broadcast: sockets not in the open state are silently
skipped, the rest go through safeWSend. -/
def broadcastStep (fail : Nat → Bool) (m : OutMsg) (acc : ServerState × List Effect)
    (c : Nat) : ServerState × List Effect :=
  if stateOf acc.1 c = WSState.opened then
    ((safeWSend fail acc.1 c m).1, acc.2 ++ (safeWSend fail acc.1 c m).2)
  else acc

/-- The broadcastToSession helper: looks the session up and fans the payload
out over its member set, isolating per-member send failures. -/
def broadcastToSession (fail : Nat → Bool) (st : ServerState) (sid : String)
    (m : OutMsg) : ServerState × List Effect :=
  match mapGet st.sessions sid with
  | none => (st, [])
  | some cs => cs.foldl (broadcastStep fail m) (st, [])

/-- Collaborators of the speech pipeline: language detection, translation
and message persistence, each fallible. -/
structure Collab where
  detect : JVal → Except String String
  translate : JVal → JVal → JVal → Except String String
  createMessage : Message → Except String Message

/-- Detection step of the speech case: when the language field is truthy it
is used directly, otherwise detectWithFallback is called. -/
def detectStep (cb : Collab) (data : RawData) : Except String JVal × List Effect :=
  if truthy data.language then (Except.ok (data.language.getD JVal.other), [])
  else
    match cb.detect (data.text.getD JVal.other) with
    | Except.ok lang => (Except.ok (JVal.str lang), [Effect.callDetect (data.text.getD JVal.other)])
    | Except.error e => (Except.error e, [Effect.callDetect (data.text.getD JVal.other)])

/-- Message record built by the speech case before persistence. -/
def speechMessage (sid : String) (data : RawData) (srcLang : JVal)
    (translated : String) : Message :=
  { sessionId := sid
    speakerId := getNum data.speakerId
    originalText := data.text.getD JVal.other
    translatedText := translated
    originalLanguage := srcLang
    targetLanguage := data.targetLanguage.getD JVal.other }

/-- Detect, translate and persist steps of the speech case, with the trace
of collaborator calls made along the way. -/
def speechPipeline (cb : Collab) (sid : String) (data : RawData) :
    Except String Message × List Effect :=
  let text := data.text.getD JVal.other
  let target := data.targetLanguage.getD JVal.other
  match detectStep cb data with
  | (Except.error e, effs) => (Except.error e, effs)
  | (Except.ok srcLang, effs) =>
    match cb.translate text srcLang target with
    | Except.error e => (Except.error e, effs ++ [Effect.callTranslate text srcLang target])
    | Except.ok translated =>
      match cb.createMessage (speechMessage sid data srcLang translated) with
      | Except.error e =>
          (Except.error e,
           effs ++ [Effect.callTranslate text srcLang target,
                    Effect.callCreateMessage (speechMessage sid data srcLang translated)])
      | Except.ok saved =>
          (Except.ok saved,
           effs ++ [Effect.callTranslate text srcLang target,
                    Effect.callCreateMessage (speechMessage sid data srcLang translated),
                    Effect.persistOk saved])

/-- The speech case after the joined check: field validation, then the
pipeline; a raising step yields one error event to the sender, a successful
pipeline broadcasts the saved message to the whole session. -/
def handleSpeech (cb : Collab) (fail : Nat → Bool) (st : ServerState) (ws : Nat)
    (sid : String) (data : RawData) : ServerState × List Effect :=
  if !truthy data.text || !isNum data.speakerId || !truthy data.targetLanguage then
    safeWSend fail st ws (OutMsg.errorMsg "Missing required fields for speech message")
  else
    match speechPipeline cb sid data with
    | (Except.error e, effs) =>
        ((safeWSend fail st ws (OutMsg.errorMsg ("Failed to process speech: " ++ e))).1,
         effs ++ (safeWSend fail st ws (OutMsg.errorMsg ("Failed to process speech: " ++ e))).2)
    | (Except.ok saved, effs) =>
        match mapGet st.sessions sid with
        | none => (st, effs)
        | some cs =>
            if cs = [] then (st, effs)
            else
              ((broadcastToSession fail st sid (OutMsg.translation saved)).1,
               effs ++ (broadcastToSession fail st sid (OutMsg.translation saved)).2)

/-- The continuous case after the joined check: field validation, then a
broadcast of the interim text; no collaborator is ever called. -/
def handleContinuous (fail : Nat → Bool) (st : ServerState) (ws : Nat)
    (sid : String) (data : RawData) : ServerState × List Effect :=
  if !truthy data.interimText || !isNum data.finalSpeakerId || !truthy data.targetLang then
    safeWSend fail st ws (OutMsg.errorMsg "Missing required fields for continuous message")
  else
    broadcastToSession fail st sid
      (OutMsg.interim (getNum data.finalSpeakerId) (data.interimText.getD JVal.other))

/-- The join case: session id validation, then registration of the sender in
the (possibly freshly created) session entry and a join acknowledgement. -/
def handleJoin (fail : Nat → Bool) (st : ServerState) (ws : Nat) (data : RawData) :
    ServerState × List Effect :=
  if !truthy data.sessionId || !isStr data.sessionId then
    safeWSend fail st ws (OutMsg.errorMsg "Invalid session ID")
  else
    let sid := getStr data.sessionId
    let st2 := { st with
                   connSession := mapSet st.connSession ws sid,
                   sessions := mapSet st.sessions sid (setAdd (members st sid) ws) }
    safeWSend fail st2 ws (OutMsg.joinAck sid)

/-- The on-message handler: records activity, validates the envelope and
dispatches on the message type. -/
def handleMessage (cb : Collab) (fail : Nat → Bool) (st0 : ServerState) (ws : Nat)
    (data : RawData) : ServerState × List Effect :=
  let st := touchActivity st0 ws
  if !truthy data.type then
    safeWSend fail st ws (OutMsg.errorMsg "Invalid message format")
  else if data.type = some (JVal.str "join") then
    handleJoin fail st ws data
  else if data.type = some (JVal.str "speech") then
    match mapGet st.connSession ws with
    | none => safeWSend fail st ws (OutMsg.errorMsg "Not joined to a session")
    | some sid => handleSpeech cb fail st ws sid data
  else if data.type = some (JVal.str "continuous") then
    match mapGet st.connSession ws with
    | none => safeWSend fail st ws (OutMsg.errorMsg "Not joined to a session")
    | some sid => handleContinuous fail st ws sid data
  else if data.type = some (JVal.str "ping") then
    safeWSend fail st ws (OutMsg.pong data.timestamp)
  else
    safeWSend fail st ws (OutMsg.errorMsg ("Unknown message type: " ++ jvalText data.type))

/-- The on-close handler: clears the ping timer, drops the liveness record,
removes the socket from its joined session (deleting the session when it
empties) and untracks the now closed socket. -/
def closeHandler (st0 : ServerState) (ws : Nat) : ServerState :=
  let st := { st0 with
                lastActivity := st0.lastActivity.erase ws,
                readyState := mapSet st0.readyState ws WSState.closed,
                clients := st0.clients.erase ws }
  match mapGet st.connSession ws with
  | none => st
  | some sid =>
    match mapGet st.sessions sid with
    | none => st
    | some cs =>
      let cs2 := cs.erase ws
      if cs2 = [] then { st with sessions := mapDel st.sessions sid }
      else { st with sessions := mapSet st.sessions sid cs2 }

/-- Condition of the broken-connection branch of the cleanup sweep: the
readyState is neither OPEN nor CONNECTING, or the liveness record is gone. -/
def brokenCond (st : ServerState) (c : Nat) : Bool :=
  (!(stateOf st c = WSState.opened) && !(stateOf st c = WSState.connecting))
    || !(decide (c ∈ st.lastActivity))

/-- Removal of a terminated connection from every session, deleting each
session it empties. -/
def removeFromAllSessions : List (String × List Nat) → Nat → List (String × List Nat)
  | [], _ => []
  | (sid, cs) :: rest, c =>
      if c ∈ cs then
        if cs.erase c = [] then removeFromAllSessions rest c
        else (sid, cs.erase c) :: removeFromAllSessions rest c
      else (sid, cs) :: removeFromAllSessions rest c

/-- Broken-connection branch of the cleanup sweep for one tracked client:
when the condition holds the socket is force-terminated, its liveness record
deleted and its memberships removed. -/
def reaperStep (acc : ServerState × List Effect) (c : Nat) : ServerState × List Effect :=
  if brokenCond acc.1 c then
    ({ acc.1 with
         readyState := mapSet acc.1.readyState c WSState.closed,
         lastActivity := acc.1.lastActivity.erase c,
         sessions := removeFromAllSessions acc.1.sessions c },
     acc.2 ++ [Effect.termConn c])
  else acc

/-- Broken-connection pass of the periodic cleanup sweep over the tracked
clients. -/
def reaperSweep (st : ServerState) : ServerState × List Effect :=
  st.clients.foldl reaperStep (st, [])

/-- Server state at startup: no sessions, no clients. -/
def initState : ServerState :=
  { sessions := [], lastActivity := [], connSession := [], readyState := [], clients := [] }

/-- Transitions of the server: a connection accept, an inbound message, a
socket close event, and a cleanup sweep. -/
inductive Step : ServerState → ServerState → Prop where
  | accept (st : ServerState) (c : Nat) :
      Step st { touchActivity st c with
                  readyState := mapSet st.readyState c WSState.opened,
                  clients := setAdd st.clients c }
  | msg (st : ServerState) (cb : Collab) (fail : Nat → Bool) (ws : Nat) (data : RawData) :
      Step st (handleMessage cb fail st ws data).1
  | close (st : ServerState) (ws : Nat) :
      Step st (closeHandler st ws)
  | reap (st : ServerState) :
      Step st (reaperSweep st).1

/-- States reachable from startup. -/
inductive Reachable : ServerState → Prop where
  | init : Reachable initState
  | step {st st2 : ServerState} : Reachable st → Step st st2 → Reachable st2

/-! Basic lemmas about the association-list map and the member-set
operations. -/

theorem mapGet_mapSet_self {κ α : Type} [DecidableEq κ] (m : List (κ × α)) (k : κ) (v : α) :
    mapGet (mapSet m k v) k = some v := by
  induction m with
  | nil => simp [mapSet, mapGet]
  | cons p rest ih =>
    by_cases h : p.1 = k
    · simp [mapSet, mapGet, h]
    · simpa [mapSet, mapGet, h] using ih

theorem mapGet_mapSet_ne {κ α : Type} [DecidableEq κ] (m : List (κ × α)) (k k2 : κ) (v : α)
    (h : k2 ≠ k) : mapGet (mapSet m k v) k2 = mapGet m k2 := by
  have hne : ¬ k = k2 := fun hh => h hh.symm
  induction m with
  | nil => simp [mapSet, mapGet, hne]
  | cons p rest ih =>
    obtain ⟨k1, v1⟩ := p
    by_cases hp : k1 = k
    · subst hp
      simp [mapSet, mapGet, hne]
    · by_cases hp2 : k1 = k2
      · simp [mapSet, mapGet, hp, hp2, h]
      · simp [mapSet, mapGet, hp, hp2, ih]

theorem mapGet_mapDel_self {κ α : Type} [DecidableEq κ] (m : List (κ × α)) (k : κ) :
    mapGet (mapDel m k) k = none := by
  induction m with
  | nil => simp [mapDel, mapGet]
  | cons p rest ih =>
    obtain ⟨k1, v1⟩ := p
    simp only [mapDel, ne_eq, decide_not] at ih ⊢
    by_cases h : k1 = k
    · subst h
      simp [List.filter_cons, mapGet, ih]
    · simp [List.filter_cons, mapGet, h, ih]

theorem mapGet_mapDel_ne {κ α : Type} [DecidableEq κ] (m : List (κ × α)) (k k2 : κ)
    (h : k2 ≠ k) : mapGet (mapDel m k) k2 = mapGet m k2 := by
  have hne : ¬ k = k2 := fun hh => h hh.symm
  induction m with
  | nil => simp [mapDel, mapGet]
  | cons p rest ih =>
    obtain ⟨k1, v1⟩ := p
    simp only [mapDel, ne_eq, decide_not] at ih ⊢
    by_cases hp : k1 = k
    · subst hp
      simp [List.filter_cons, mapGet, hne, ih]
    · by_cases hp2 : k1 = k2
      · subst hp2
        simp [List.filter_cons, mapGet, hp, h, ih]
      · simp [List.filter_cons, mapGet, hp, hp2, ih]

theorem mapSet_eq_self {κ α : Type} [DecidableEq κ] (m : List (κ × α)) (k : κ) (v : α)
    (h : mapGet m k = some v) : mapSet m k v = m := by
  induction m with
  | nil => simp [mapGet] at h
  | cons p rest ih =>
    by_cases hp : p.1 = k
    · obtain ⟨k2, v2⟩ := p
      simp only at hp
      subst hp
      simp [mapGet] at h
      simp [mapSet, h]
    · obtain ⟨k2, v2⟩ := p
      simp only at hp
      simp [mapGet, hp] at h
      simp [mapSet, hp, ih h]

theorem setAdd_of_mem {l : List Nat} {c : Nat} (h : c ∈ l) : setAdd l c = l := by
  simp [setAdd, h]

theorem setAdd_ne_nil (l : List Nat) (c : Nat) : setAdd l c ≠ [] := by
  unfold setAdd
  split
  · rename_i h
    intro hnil
    subst hnil
    simp at h
  · intro hnil
    simp at hnil

theorem setAdd_nodup {l : List Nat} {c : Nat} (h : l.Nodup) : (setAdd l c).Nodup := by
  unfold setAdd
  split
  · exact h
  · rename_i hmem
    simpa [List.nodup_append] using ⟨h, hmem⟩

theorem mem_setAdd_self (l : List Nat) (c : Nat) : c ∈ setAdd l c := by
  unfold setAdd
  split
  · assumption
  · simp

theorem mem_setAdd_of_mem {l : List Nat} {c c2 : Nat} (h : c2 ∈ l) : c2 ∈ setAdd l c := by
  unfold setAdd
  split
  · exact h
  · simp [h]

/-- Keys of an association list. -/
def mapKeys {κ α : Type} (m : List (κ × α)) : List κ := m.map Prod.fst

theorem mapKeys_mapSet {κ α : Type} [DecidableEq κ] (m : List (κ × α)) (k : κ) (v : α) :
    mapKeys (mapSet m k v) = mapKeys m ∨
      (mapKeys (mapSet m k v) = mapKeys m ++ [k] ∧ k ∉ mapKeys m) := by
  induction m with
  | nil => right; simp [mapKeys, mapSet]
  | cons p rest ih =>
    obtain ⟨k1, v1⟩ := p
    by_cases hp : k1 = k
    · left; simp [mapKeys, mapSet, hp]
    · rcases ih with ih | ⟨ih1, ih2⟩
      · left; simp [mapKeys, mapSet, hp] at ih ⊢; exact ih
      · right
        constructor
        · simp [mapKeys, mapSet, hp] at ih1 ⊢; exact ih1
        · simp [mapKeys, hp] at ih2 ⊢
          exact ⟨fun hh => hp hh.symm, ih2⟩

theorem mapKeys_mapSet_nodup {κ α : Type} [DecidableEq κ] {m : List (κ × α)} {k : κ} {v : α}
    (h : (mapKeys m).Nodup) : (mapKeys (mapSet m k v)).Nodup := by
  rcases mapKeys_mapSet m k v with heq | ⟨heq, hnm⟩
  · rw [heq]; exact h
  · rw [heq]
    simpa [List.nodup_append] using ⟨h, hnm⟩

theorem mapKeys_mapDel_sublist {κ α : Type} [DecidableEq κ] (m : List (κ × α)) (k : κ) :
    (mapKeys (mapDel m k)).Sublist (mapKeys m) :=
  List.Sublist.map Prod.fst (List.filter_sublist m)

theorem mapKeys_removeFromAllSessions_sublist (m : List (String × List Nat)) (c : Nat) :
    (mapKeys (removeFromAllSessions m c)).Sublist (mapKeys m) := by
  induction m with
  | nil => simp [removeFromAllSessions, mapKeys]
  | cons p rest ih =>
    obtain ⟨sid, cs⟩ := p
    unfold removeFromAllSessions
    by_cases h1 : c ∈ cs
    · by_cases h2 : cs.erase c = []
      · simpa [h1, h2, mapKeys] using ih.cons sid
      · simpa [h1, h2, mapKeys] using ih.cons₂ sid
    · simpa [h1, mapKeys] using ih.cons₂ sid

theorem mapGet_eq_none_of_not_mem_keys {κ α : Type} [DecidableEq κ] {m : List (κ × α)} {k : κ}
    (h : k ∉ mapKeys m) : mapGet m k = none := by
  induction m with
  | nil => rfl
  | cons p rest ih =>
    rw [show mapKeys (p :: rest) = p.1 :: mapKeys rest from rfl, List.mem_cons] at h
    push_neg at h
    have hne : ¬ p.1 = k := fun hh => h.1 hh.symm
    simp [mapGet, hne, ih h.2]

theorem members_removeFromAllSessions (m : List (String × List Nat)) (c : Nat) (sid : String)
    (hkeys : (mapKeys m).Nodup) :
    (mapGet (removeFromAllSessions m c) sid).getD [] = ((mapGet m sid).getD []).erase c := by
  induction m with
  | nil => simp [removeFromAllSessions, mapGet]
  | cons p rest ih =>
    obtain ⟨k1, cs⟩ := p
    have hkc : (k1 :: mapKeys rest).Nodup := hkeys
    have hk1 : k1 ∉ mapKeys rest := (List.nodup_cons.mp hkc).1
    have hrest : (mapKeys rest).Nodup := (List.nodup_cons.mp hkc).2
    unfold removeFromAllSessions
    by_cases hsid : k1 = sid
    · subst hsid
      by_cases h1 : c ∈ cs
      · by_cases h2 : cs.erase c = []
        · have : mapGet (removeFromAllSessions rest c) k1 = none :=
            mapGet_eq_none_of_not_mem_keys
              (fun hmem => hk1 ((mapKeys_removeFromAllSessions_sublist rest c).mem hmem))
          simp [h1, h2, mapGet, this]
        · simp [h1, h2, mapGet]
      · simp [h1, mapGet, List.erase_of_not_mem h1]
    · by_cases h1 : c ∈ cs
      · by_cases h2 : cs.erase c = []
        · simp [h1, h2, mapGet, hsid, ih hrest]
        · simp [h1, h2, mapGet, hsid, ih hrest]
      · simp [h1, mapGet, hsid, ih hrest]

/-! Frame lemmas for safeWSend and the broadcaster. -/

theorem safeWSend_sessions (fail : Nat → Bool) (st : ServerState) (c : Nat) (m : OutMsg) :
    (safeWSend fail st c m).1.sessions = st.sessions := by
  unfold safeWSend
  split
  · split <;> rfl
  · rfl

theorem safeWSend_connSession (fail : Nat → Bool) (st : ServerState) (c : Nat) (m : OutMsg) :
    (safeWSend fail st c m).1.connSession = st.connSession := by
  unfold safeWSend
  split
  · split <;> rfl
  · rfl

theorem safeWSend_lastActivity (fail : Nat → Bool) (st : ServerState) (c : Nat) (m : OutMsg) :
    (safeWSend fail st c m).1.lastActivity = st.lastActivity := by
  unfold safeWSend
  split
  · split <;> rfl
  · rfl

theorem safeWSend_clients (fail : Nat → Bool) (st : ServerState) (c : Nat) (m : OutMsg) :
    (safeWSend fail st c m).1.clients = st.clients := by
  unfold safeWSend
  split
  · split <;> rfl
  · rfl

theorem safeWSend_open_ok {fail : Nat → Bool} {st : ServerState} {c : Nat} (m : OutMsg)
    (hopen : stateOf st c = WSState.opened) (hfail : fail c = false) :
    safeWSend fail st c m = (st, [Effect.deliver c m]) := by
  simp [safeWSend, hopen, hfail]

theorem safeWSend_not_open {fail : Nat → Bool} {st : ServerState} {c : Nat} (m : OutMsg)
    (h : stateOf st c ≠ WSState.opened) :
    safeWSend fail st c m = (st, []) := by
  simp [safeWSend, h]

theorem stateOf_broadcastStep_ne (fail : Nat → Bool) (m : OutMsg)
    (acc : ServerState × List Effect) (c c2 : Nat) (h : c ≠ c2) :
    stateOf (broadcastStep fail m acc c2).1 c = stateOf acc.1 c := by
  unfold broadcastStep safeWSend setReady
  split
  · split
    · simp [stateOf, mapGet_mapSet_ne _ _ _ _ h]
    · rfl
  · rfl

theorem foldl_broadcastStep_sessions (cs : List Nat) (fail : Nat → Bool) (m : OutMsg)
    (acc : ServerState × List Effect) :
    (cs.foldl (broadcastStep fail m) acc).1.sessions = acc.1.sessions := by
  induction cs generalizing acc with
  | nil => rfl
  | cons c rest ih =>
    rw [List.foldl_cons, ih]
    unfold broadcastStep
    split
    · exact safeWSend_sessions fail acc.1 c m
    · rfl

theorem foldl_broadcastStep_connSession (cs : List Nat) (fail : Nat → Bool) (m : OutMsg)
    (acc : ServerState × List Effect) :
    (cs.foldl (broadcastStep fail m) acc).1.connSession = acc.1.connSession := by
  induction cs generalizing acc with
  | nil => rfl
  | cons c rest ih =>
    rw [List.foldl_cons, ih]
    unfold broadcastStep
    split
    · exact safeWSend_connSession fail acc.1 c m
    · rfl

theorem foldl_broadcastStep_lastActivity (cs : List Nat) (fail : Nat → Bool) (m : OutMsg)
    (acc : ServerState × List Effect) :
    (cs.foldl (broadcastStep fail m) acc).1.lastActivity = acc.1.lastActivity := by
  induction cs generalizing acc with
  | nil => rfl
  | cons c rest ih =>
    rw [List.foldl_cons, ih]
    unfold broadcastStep
    split
    · exact safeWSend_lastActivity fail acc.1 c m
    · rfl

theorem foldl_broadcastStep_clients (cs : List Nat) (fail : Nat → Bool) (m : OutMsg)
    (acc : ServerState × List Effect) :
    (cs.foldl (broadcastStep fail m) acc).1.clients = acc.1.clients := by
  induction cs generalizing acc with
  | nil => rfl
  | cons c rest ih =>
    rw [List.foldl_cons, ih]
    unfold broadcastStep
    split
    · exact safeWSend_clients fail acc.1 c m
    · rfl

theorem broadcastToSession_sessions (fail : Nat → Bool) (st : ServerState) (sid : String)
    (m : OutMsg) : (broadcastToSession fail st sid m).1.sessions = st.sessions := by
  unfold broadcastToSession
  split
  · rfl
  · exact foldl_broadcastStep_sessions _ _ _ _

theorem broadcastToSession_connSession (fail : Nat → Bool) (st : ServerState) (sid : String)
    (m : OutMsg) : (broadcastToSession fail st sid m).1.connSession = st.connSession := by
  unfold broadcastToSession
  split
  · rfl
  · exact foldl_broadcastStep_connSession _ _ _ _

theorem broadcastToSession_lastActivity (fail : Nat → Bool) (st : ServerState) (sid : String)
    (m : OutMsg) : (broadcastToSession fail st sid m).1.lastActivity = st.lastActivity := by
  unfold broadcastToSession
  split
  · rfl
  · exact foldl_broadcastStep_lastActivity _ _ _ _

theorem broadcastToSession_clients (fail : Nat → Bool) (st : ServerState) (sid : String)
    (m : OutMsg) : (broadcastToSession fail st sid m).1.clients = st.clients := by
  unfold broadcastToSession
  split
  · rfl
  · exact foldl_broadcastStep_clients _ _ _ _

/-! Effect lemmas for the broadcaster. -/

theorem foldl_broadcastStep_all_open (cs : List Nat) (fail : Nat → Bool) (m : OutMsg)
    (st : ServerState) (effs : List Effect)
    (hopen : ∀ c ∈ cs, stateOf st c = WSState.opened)
    (hfail : ∀ c ∈ cs, fail c = false) :
    cs.foldl (broadcastStep fail m) (st, effs) =
      (st, effs ++ cs.map (fun c => Effect.deliver c m)) := by
  induction cs generalizing effs with
  | nil => simp
  | cons c rest ih =>
    have h1 : broadcastStep fail m (st, effs) c = (st, effs ++ [Effect.deliver c m]) := by
      simp [broadcastStep, hopen c (by simp),
            safeWSend_open_ok m (hopen c (by simp)) (hfail c (by simp))]
    rw [List.foldl_cons, h1,
        ih _ (fun c2 hc2 => hopen c2 (List.mem_cons_of_mem c hc2))
             (fun c2 hc2 => hfail c2 (List.mem_cons_of_mem c hc2))]
    simp

theorem foldl_broadcastStep_effects_mono (cs : List Nat) (fail : Nat → Bool) (m : OutMsg)
    (acc : ServerState × List Effect) {e : Effect} (he : e ∈ acc.2) :
    e ∈ (cs.foldl (broadcastStep fail m) acc).2 := by
  induction cs generalizing acc with
  | nil => exact he
  | cons c rest ih =>
    rw [List.foldl_cons]
    apply ih
    unfold broadcastStep safeWSend
    split
    · split <;> simp [he]
    · exact he

theorem foldl_broadcastStep_effects_shape (cs : List Nat) (fail : Nat → Bool) (m : OutMsg)
    (acc : ServerState × List Effect) :
    ∀ e ∈ (cs.foldl (broadcastStep fail m) acc).2,
      e ∈ acc.2 ∨ (∃ c, e = Effect.deliver c m) ∨ (∃ c, e = Effect.closeConn c) := by
  induction cs generalizing acc with
  | nil => intro e he; exact Or.inl he
  | cons c rest ih =>
    intro e he
    rw [List.foldl_cons] at he
    rcases ih (broadcastStep fail m acc c) e he with h | h
    · revert h
      unfold broadcastStep safeWSend
      split
      · split
        · intro h
          simp at h
          rcases h with h | h
          · exact Or.inl h
          · exact Or.inr (Or.inr ⟨c, h⟩)
        · intro h
          simp at h
          rcases h with h | h
          · exact Or.inl h
          · exact Or.inr (Or.inl ⟨c, h⟩)
      · intro h
        exact Or.inl h
    · exact Or.inr h

theorem broadcast_deliver_of_open (cs : List Nat) (fail : Nat → Bool) (m : OutMsg)
    (acc : ServerState × List Effect) (c : Nat) (hc : c ∈ cs)
    (hopen : stateOf acc.1 c = WSState.opened) (hfail : fail c = false) :
    Effect.deliver c m ∈ (cs.foldl (broadcastStep fail m) acc).2 := by
  induction cs generalizing acc with
  | nil => simp at hc
  | cons c0 rest ih =>
    rw [List.foldl_cons]
    by_cases hc0 : c0 = c
    · subst hc0
      have h1 : broadcastStep fail m acc c0 = (acc.1, acc.2 ++ [Effect.deliver c0 m]) := by
        simp [broadcastStep, hopen, safeWSend_open_ok m hopen hfail]
      rw [h1]
      exact foldl_broadcastStep_effects_mono _ _ _ _ (by simp)
    · have hcr : c ∈ rest := by
        rcases List.mem_cons.mp hc with h | h
        · exact absurd h.symm hc0
        · exact h
      exact ih _ hcr (by
        rw [stateOf_broadcastStep_ne fail m acc c c0 (fun hh => hc0 hh.symm)]
        exact hopen)

theorem broadcast_close_of_fail (cs : List Nat) (fail : Nat → Bool) (m : OutMsg)
    (acc : ServerState × List Effect) (c : Nat) (hc : c ∈ cs)
    (hopen : stateOf acc.1 c = WSState.opened) (hfail : fail c = true) :
    Effect.closeConn c ∈ (cs.foldl (broadcastStep fail m) acc).2 := by
  induction cs generalizing acc with
  | nil => simp at hc
  | cons c0 rest ih =>
    rw [List.foldl_cons]
    by_cases hc0 : c0 = c
    · subst hc0
      have h1 : broadcastStep fail m acc c0 =
          ((safeWSend fail acc.1 c0 m).1, acc.2 ++ [Effect.closeConn c0]) := by
        simp [broadcastStep, hopen, safeWSend, hfail]
      rw [h1]
      exact foldl_broadcastStep_effects_mono _ _ _ _ (by simp)
    · have hcr : c ∈ rest := by
        rcases List.mem_cons.mp hc with h | h
        · exact absurd h.symm hc0
        · exact h
      exact ih _ hcr (by
        rw [stateOf_broadcastStep_ne fail m acc c c0 (fun hh => hc0 hh.symm)]
        exact hopen)

theorem broadcast_skip_of_not_open (cs : List Nat) (fail : Nat → Bool) (m : OutMsg)
    (acc : ServerState × List Effect) (c : Nat)
    (hst : stateOf acc.1 c ≠ WSState.opened)
    (hdel : ∀ om : OutMsg, Effect.deliver c om ∉ acc.2)
    (hcl : Effect.closeConn c ∉ acc.2) :
    (∀ om : OutMsg, Effect.deliver c om ∉ (cs.foldl (broadcastStep fail m) acc).2) ∧
      Effect.closeConn c ∉ (cs.foldl (broadcastStep fail m) acc).2 := by
  induction cs generalizing acc with
  | nil => exact ⟨hdel, hcl⟩
  | cons c0 rest ih =>
    rw [List.foldl_cons]
    by_cases hc0 : c0 = c
    · subst hc0
      have h1 : broadcastStep fail m acc c0 = acc := by
        simp [broadcastStep, hst]
      rw [h1]
      exact ih acc hst hdel hcl
    · have hne : c ≠ c0 := fun hh => hc0 hh.symm
      apply ih
      · rw [stateOf_broadcastStep_ne fail m acc c c0 hne]
        exact hst
      · intro om
        unfold broadcastStep safeWSend
        split
        · split
          · simp only [List.mem_append, List.mem_singleton]
            rintro (h | h)
            · exact hdel om h
            · exact Effect.noConfusion h
          · simp only [List.mem_append, List.mem_singleton]
            rintro (h | h)
            · exact hdel om h
            · injection h with h1 h2
              exact hne h1
        · exact hdel om
      · unfold broadcastStep safeWSend
        split
        · split
          · simp only [List.mem_append, List.mem_singleton]
            rintro (h | h)
            · exact hcl h
            · injection h with h1
              exact hne h1
          · simp only [List.mem_append, List.mem_singleton]
            rintro (h | h)
            · exact hcl h
            · exact Effect.noConfusion h
        · exact hcl

/-! Frame lemmas for the message handlers. -/

theorem touchActivity_sessions (st : ServerState) (c : Nat) :
    (touchActivity st c).sessions = st.sessions := rfl

theorem touchActivity_connSession (st : ServerState) (c : Nat) :
    (touchActivity st c).connSession = st.connSession := rfl

theorem touchActivity_readyState (st : ServerState) (c : Nat) :
    (touchActivity st c).readyState = st.readyState := rfl

theorem touchActivity_clients (st : ServerState) (c : Nat) :
    (touchActivity st c).clients = st.clients := rfl

theorem stateOf_touchActivity (st : ServerState) (c c2 : Nat) :
    stateOf (touchActivity st c) c2 = stateOf st c2 := rfl

theorem members_touchActivity (st : ServerState) (c : Nat) (sid : String) :
    members (touchActivity st c) sid = members st sid := rfl

theorem handleSpeech_sessions (cb : Collab) (fail : Nat → Bool) (st : ServerState)
    (ws : Nat) (sid : String) (data : RawData) :
    (handleSpeech cb fail st ws sid data).1.sessions = st.sessions := by
  unfold handleSpeech
  split
  · exact safeWSend_sessions _ _ _ _
  · split
    · exact safeWSend_sessions _ _ _ _
    · split
      · rfl
      · split
        · rfl
        · exact broadcastToSession_sessions _ _ _ _

theorem handleSpeech_connSession (cb : Collab) (fail : Nat → Bool) (st : ServerState)
    (ws : Nat) (sid : String) (data : RawData) :
    (handleSpeech cb fail st ws sid data).1.connSession = st.connSession := by
  unfold handleSpeech
  split
  · exact safeWSend_connSession _ _ _ _
  · split
    · exact safeWSend_connSession _ _ _ _
    · split
      · rfl
      · split
        · rfl
        · exact broadcastToSession_connSession _ _ _ _

theorem handleSpeech_clients (cb : Collab) (fail : Nat → Bool) (st : ServerState)
    (ws : Nat) (sid : String) (data : RawData) :
    (handleSpeech cb fail st ws sid data).1.clients = st.clients := by
  unfold handleSpeech
  split
  · exact safeWSend_clients _ _ _ _
  · split
    · exact safeWSend_clients _ _ _ _
    · split
      · rfl
      · split
        · rfl
        · exact broadcastToSession_clients _ _ _ _

theorem handleContinuous_sessions (fail : Nat → Bool) (st : ServerState) (ws : Nat)
    (sid : String) (data : RawData) :
    (handleContinuous fail st ws sid data).1.sessions = st.sessions := by
  unfold handleContinuous
  split
  · exact safeWSend_sessions _ _ _ _
  · exact broadcastToSession_sessions _ _ _ _

theorem handleContinuous_connSession (fail : Nat → Bool) (st : ServerState) (ws : Nat)
    (sid : String) (data : RawData) :
    (handleContinuous fail st ws sid data).1.connSession = st.connSession := by
  unfold handleContinuous
  split
  · exact safeWSend_connSession _ _ _ _
  · exact broadcastToSession_connSession _ _ _ _

theorem handleContinuous_clients (fail : Nat → Bool) (st : ServerState) (ws : Nat)
    (sid : String) (data : RawData) :
    (handleContinuous fail st ws sid data).1.clients = st.clients := by
  unfold handleContinuous
  split
  · exact safeWSend_clients _ _ _ _
  · exact broadcastToSession_clients _ _ _ _

theorem handleJoin_sessions (fail : Nat → Bool) (st : ServerState) (ws : Nat)
    (data : RawData) :
    (handleJoin fail st ws data).1.sessions = st.sessions ∨
      (handleJoin fail st ws data).1.sessions =
        mapSet st.sessions (getStr data.sessionId)
          (setAdd (members st (getStr data.sessionId)) ws) := by
  unfold handleJoin
  split
  · exact Or.inl (safeWSend_sessions _ _ _ _)
  · right
    rw [safeWSend_sessions]

theorem handleJoin_clients (fail : Nat → Bool) (st : ServerState) (ws : Nat)
    (data : RawData) : (handleJoin fail st ws data).1.clients = st.clients := by
  unfold handleJoin
  split
  · exact safeWSend_clients _ _ _ _
  · rw [safeWSend_clients]

theorem handleMessage_sessions (cb : Collab) (fail : Nat → Bool) (st : ServerState)
    (ws : Nat) (data : RawData) :
    (handleMessage cb fail st ws data).1.sessions = st.sessions ∨
      ∃ sid, (handleMessage cb fail st ws data).1.sessions =
        mapSet st.sessions sid (setAdd (members st sid) ws) := by
  unfold handleMessage
  dsimp only
  split
  · exact Or.inl (safeWSend_sessions _ _ _ _)
  · split
    · rcases handleJoin_sessions fail (touchActivity st ws) ws data with h | h
      · exact Or.inl h
      · exact Or.inr ⟨getStr data.sessionId, h⟩
    · split
      · split
        · exact Or.inl (safeWSend_sessions _ _ _ _)
        · exact Or.inl (handleSpeech_sessions _ _ _ _ _ _)
      · split
        · split
          · exact Or.inl (safeWSend_sessions _ _ _ _)
          · exact Or.inl (handleContinuous_sessions _ _ _ _ _)
        · split
          · exact Or.inl (safeWSend_sessions _ _ _ _)
          · exact Or.inl (safeWSend_sessions _ _ _ _)

theorem handleMessage_clients (cb : Collab) (fail : Nat → Bool) (st : ServerState)
    (ws : Nat) (data : RawData) :
    (handleMessage cb fail st ws data).1.clients = st.clients := by
  unfold handleMessage
  dsimp only
  split
  · exact safeWSend_clients _ _ _ _
  · split
    · exact handleJoin_clients _ _ _ _
    · split
      · split
        · exact safeWSend_clients _ _ _ _
        · exact handleSpeech_clients _ _ _ _ _ _
      · split
        · split
          · exact safeWSend_clients _ _ _ _
          · exact handleContinuous_clients _ _ _ _ _
        · split
          · exact safeWSend_clients _ _ _ _
          · exact safeWSend_clients _ _ _ _

/-! The structural invariant of reachable states. -/

/-- Well-formedness of the server state: every session entry is nonempty
with duplicate-free members, session keys are unique, and the tracked client
list is duplicate-free. -/
def GoodState (st : ServerState) : Prop :=
  (∀ p ∈ st.sessions, p.2 ≠ [] ∧ p.2.Nodup) ∧
    (mapKeys st.sessions).Nodup ∧ st.clients.Nodup

theorem mapGet_mem {κ α : Type} [DecidableEq κ] {m : List (κ × α)} {k : κ} {v : α}
    (h : mapGet m k = some v) : (k, v) ∈ m := by
  induction m with
  | nil => simp [mapGet] at h
  | cons p rest ih =>
    obtain ⟨k1, v1⟩ := p
    by_cases hp : k1 = k
    · subst hp
      simp [mapGet] at h
      simp [h]
    · simp [mapGet, hp] at h
      simp [ih h]

theorem members_nodup {st : ServerState} (h : GoodState st) (sid : String) :
    (members st sid).Nodup := by
  unfold members
  cases hg : mapGet st.sessions sid with
  | none => simp
  | some cs =>
    simpa using (h.1 _ (mapGet_mem hg)).2

theorem mapSet_entries {κ α : Type} [DecidableEq κ] {m : List (κ × α)} {P : κ × α → Prop}
    (h : ∀ p ∈ m, P p) (k : κ) (v : α) (hv : ∀ k2, P (k2, v)) :
    ∀ p ∈ mapSet m k v, P p := by
  induction m with
  | nil =>
    intro p hp
    simp [mapSet] at hp
    subst hp
    exact hv k
  | cons q rest ih =>
    intro p hp
    obtain ⟨k1, v1⟩ := q
    unfold mapSet at hp
    by_cases hq : k1 = k
    · subst hq
      simp at hp
      rcases hp with hp | hp
      · subst hp; exact hv k1
      · exact h _ (List.mem_cons_of_mem _ hp)
    · simp [hq] at hp
      rcases hp with hp | hp
      · subst hp; exact h (k1, v1) (by simp)
      · exact ih (fun p2 hp2 => h p2 (List.mem_cons_of_mem _ hp2)) p hp

theorem mapDel_entries {κ α : Type} [DecidableEq κ] {m : List (κ × α)} {P : κ × α → Prop}
    (h : ∀ p ∈ m, P p) (k : κ) : ∀ p ∈ mapDel m k, P p := by
  intro p hp
  exact h p (List.mem_of_mem_filter hp)

theorem removeFromAllSessions_entries {m : List (String × List Nat)} {c : Nat}
    (h : ∀ p ∈ m, p.2 ≠ [] ∧ p.2.Nodup) :
    ∀ p ∈ removeFromAllSessions m c, p.2 ≠ [] ∧ p.2.Nodup := by
  induction m with
  | nil => intro p hp; simp [removeFromAllSessions] at hp
  | cons q rest ih =>
    obtain ⟨sid, cs⟩ := q
    intro p hp
    have hrest := fun p2 hp2 => h p2 (List.mem_cons_of_mem _ hp2)
    unfold removeFromAllSessions at hp
    by_cases h1 : c ∈ cs
    · by_cases h2 : cs.erase c = []
      · simp [h1, h2] at hp
        exact ih hrest _ hp
      · simp [h1, h2] at hp
        rcases hp with hp | hp
        · subst hp
          exact ⟨h2, ((h (sid, cs) (by simp)).2).erase c⟩
        · exact ih hrest _ hp
    · simp [h1] at hp
      rcases hp with hp | hp
      · subst hp
        exact h (sid, cs) (by simp)
      · exact ih hrest _ hp

theorem reaperStep_goodState {acc : ServerState × List Effect} (h : GoodState acc.1)
    (c : Nat) : GoodState (reaperStep acc c).1 := by
  unfold reaperStep
  split
  · refine ⟨?_, ?_, ?_⟩
    · exact removeFromAllSessions_entries h.1
    · exact (mapKeys_removeFromAllSessions_sublist _ _).nodup h.2.1
    · exact h.2.2
  · exact h

theorem foldl_reaperStep_goodState (l : List Nat) (acc : ServerState × List Effect)
    (h : GoodState acc.1) : GoodState (l.foldl reaperStep acc).1 := by
  induction l generalizing acc with
  | nil => exact h
  | cons c rest ih => exact ih _ (reaperStep_goodState h c)

theorem step_goodState {st st2 : ServerState} (h : GoodState st) (hs : Step st st2) :
    GoodState st2 := by
  cases hs with
  | accept c =>
    exact ⟨h.1, h.2.1, setAdd_nodup h.2.2⟩
  | msg cb fail ws data =>
    refine ⟨?_, ?_, ?_⟩
    · rcases handleMessage_sessions cb fail st ws data with hse | ⟨sid, hse⟩
      · rw [hse]; exact h.1
      · rw [hse]
        refine mapSet_entries h.1 _ _ ?_
        intro k2
        exact ⟨setAdd_ne_nil _ _, setAdd_nodup (members_nodup h sid)⟩
    · rcases handleMessage_sessions cb fail st ws data with hse | ⟨sid, hse⟩
      · rw [hse]; exact h.2.1
      · rw [hse]; exact mapKeys_mapSet_nodup h.2.1
    · rw [handleMessage_clients]; exact h.2.2
  | close ws =>
    unfold closeHandler
    dsimp only
    split
    · exact ⟨h.1, h.2.1, h.2.2.erase ws⟩
    · rename_i sid hsid
      split
      · exact ⟨h.1, h.2.1, h.2.2.erase ws⟩
      · rename_i cs hcs
        split
        · refine ⟨?_, ?_, h.2.2.erase ws⟩
          · exact mapDel_entries h.1 sid
          · exact (mapKeys_mapDel_sublist _ _).nodup h.2.1
        · rename_i hne
          refine ⟨?_, ?_, h.2.2.erase ws⟩
          · refine mapSet_entries h.1 _ _ ?_
            intro k2
            exact ⟨hne, ((h.1 _ (mapGet_mem hcs)).2).erase ws⟩
          · exact mapKeys_mapSet_nodup h.2.1
  | reap =>
    exact foldl_reaperStep_goodState _ _ h

theorem reachable_goodState {st : ServerState} (h : Reachable st) : GoodState st := by
  induction h with
  | init =>
    refine ⟨?_, ?_, ?_⟩
    · intro p hp; simp [initState] at hp
    · simp [initState, mapKeys]
    · simp [initState]
  | step hr hs ih => exact step_goodState ih hs

/-! Membership characterization of the teardown paths. -/

theorem connSession_closeHandler (st : ServerState) (ws : Nat) :
    (closeHandler st ws).connSession = st.connSession := by
  unfold closeHandler
  dsimp only
  split
  · rfl
  · split
    · rfl
    · split <;> rfl

theorem connSession_reaperStep (acc : ServerState × List Effect) (c : Nat) :
    (reaperStep acc c).1.connSession = acc.1.connSession := by
  unfold reaperStep
  split <;> rfl

theorem members_closeHandler (st : ServerState) (ws : Nat) (sid : String) :
    members (closeHandler st ws) sid =
      if mapGet st.connSession ws = some sid then (members st sid).erase ws
      else members st sid := by
  unfold closeHandler
  dsimp only
  cases hcs : mapGet st.connSession ws with
  | none => simp [members]
  | some sid0 =>
    cases hss : mapGet st.sessions sid0 with
    | none =>
      by_cases hsid : sid0 = sid
      · subst hsid
        simp [members, hss]
      · have : ¬ (some sid0 = some sid) := by simp [hsid]
        simp [members, this, hss]
    | some cs =>
      by_cases he : cs.erase ws = []
      · simp only [hss, he, if_pos rfl]
        by_cases hsid : sid0 = sid
        · subst hsid
          simp [members, mapGet_mapDel_self, hss, he]
        · have hne : ¬ (some sid0 = some sid) := by simp [hsid]
          simp [members, mapGet_mapDel_ne _ _ _ (fun hh => hsid hh.symm), hne]
      · simp only [hss, he, if_neg he]
        by_cases hsid : sid0 = sid
        · subst hsid
          simp [members, mapGet_mapSet_self, hss]
        · have hne : ¬ (some sid0 = some sid) := by simp [hsid]
          simp [members, mapGet_mapSet_ne _ _ _ _ (fun hh => hsid hh.symm), hne]

theorem members_reaperStep (acc : ServerState × List Effect) (ws : Nat) (sid : String)
    (hkeys : (mapKeys acc.1.sessions).Nodup) :
    members (reaperStep acc ws).1 sid =
      if brokenCond acc.1 ws then (members acc.1 sid).erase ws else members acc.1 sid := by
  unfold reaperStep
  split
  · rename_i hb
    simp only [if_pos hb]
    exact members_removeFromAllSessions acc.1.sessions ws sid hkeys
  · rename_i hb
    simp only [if_neg hb]

theorem length_erase_ge (l : List Nat) (a : Nat) : l.length - 1 ≤ (l.erase a).length := by
  rw [List.length_erase]
  split <;> omega

/-- C2: at every reachable state of the session registry, a session entry
exists if and only if its member set is nonempty; every removal deletes an
emptied entry in the same step, and creation adds a member in the same step,
so no reachable state holds an empty entry. -/
theorem session_entry_iff_nonempty {st : ServerState} (h : Reachable st) (sid : String) :
    (∃ cs, mapGet st.sessions sid = some cs) ↔
      (∃ cs, mapGet st.sessions sid = some cs ∧ cs ≠ []) := by
  constructor
  · rintro ⟨cs, hcs⟩
    exact ⟨cs, hcs, ((reachable_goodState h).1 _ (mapGet_mem hcs)).1⟩
  · rintro ⟨cs, hcs, _⟩
    exact ⟨cs, hcs⟩

/-- Trivial always-succeeding collaborators, used by concrete witnesses. -/
def cbW : Collab :=
  { detect := fun _ => Except.ok "en"
    translate := fun _ _ _ => Except.ok "hola"
    createMessage := fun m => Except.ok m }

/-- Failure injection that never fails a send, used by concrete witnesses. -/
def failFalse : Nat → Bool := fun _ => false

/-- Concrete join message for session s. -/
def joinDataS : RawData :=
  { type := some (JVal.str "join"), sessionId := some (JVal.str "s") }

/-- State after accepting connection 1 at startup. -/
def stAccept1 : ServerState :=
  { touchActivity initState 1 with
      readyState := mapSet initState.readyState 1 WSState.opened,
      clients := setAdd initState.clients 1 }

/-- State after connection 1 joins session s. -/
def stJoined1 : ServerState := (handleMessage cbW failFalse stAccept1 1 joinDataS).1

theorem stJoined1_reachable : Reachable stJoined1 :=
  Reachable.step (Reachable.step Reachable.init (Step.accept initState 1))
    (Step.msg stAccept1 cbW failFalse 1 joinDataS)

/-- Witness: the registry iff-invariant evaluated at a concrete reachable
state holding one joined connection. -/
theorem session_entry_iff_nonempty_witness :
    (∃ cs, mapGet stJoined1.sessions "s" = some cs) ↔
      (∃ cs, mapGet stJoined1.sessions "s" = some cs ∧ cs ≠ []) :=
  session_entry_iff_nonempty stJoined1_reachable "s"

/-- C4: the net effect of any combination of teardown triggers for one
connection equals that of a single teardown: running the close handler after
it has already run, or after reaper-forced termination, never removes the
connection from a session member set a second time (membership of a session
drops by at most one), and no other connection is ever removed. -/
theorem teardown_no_double_decrement {st : ServerState} (h : Reachable st) (ws : Nat) :
    (∀ sid, memberCount st sid - 1 ≤ memberCount (closeHandler (closeHandler st ws) ws) sid) ∧
    (∀ sid, memberCount st sid - 1 ≤
      memberCount (closeHandler (reaperStep (st, []) ws).1 ws) sid) ∧
    (∀ sid c, c ≠ ws →
      (c ∈ members (closeHandler (reaperStep (st, []) ws).1 ws) sid ↔ c ∈ members st sid)) ∧
    (∀ sid c, c ≠ ws →
      (c ∈ members (closeHandler (closeHandler st ws) ws) sid ↔ c ∈ members st sid)) := by
  have hg := reachable_goodState h
  have hkeys : (mapKeys st.sessions).Nodup := hg.2.1
  have hnd : ∀ sid, (members st sid).Nodup := members_nodup hg
  have herase2 : ∀ sid, ((members st sid).erase ws).erase ws = (members st sid).erase ws := by
    intro sid
    apply List.erase_of_not_mem
    intro hmem
    exact (((hnd sid).mem_erase_iff).mp hmem).1 rfl
  have hcc : ∀ sid, members (closeHandler (closeHandler st ws) ws) sid =
      if mapGet st.connSession ws = some sid then (members st sid).erase ws
      else members st sid := by
    intro sid
    rw [members_closeHandler, connSession_closeHandler, members_closeHandler]
    split
    · exact herase2 sid
    · rfl
  have hrc : ∀ sid, members (closeHandler (reaperStep (st, []) ws).1 ws) sid =
      if brokenCond st ws ∧ mapGet st.connSession ws = some sid then
        (members st sid).erase ws
      else if brokenCond st ws ∨ mapGet st.connSession ws = some sid then
        (members st sid).erase ws
      else members st sid := by
    intro sid
    rw [members_closeHandler, connSession_reaperStep]
    simp only
    rw [members_reaperStep (st, []) ws sid hkeys]
    by_cases hb : brokenCond st ws
    · by_cases hc : mapGet st.connSession ws = some sid
      · simp [hb, hc, herase2 sid]
      · simp [hb, hc]
    · by_cases hc : mapGet st.connSession ws = some sid
      · simp [hb, hc]
      · simp [hb, hc]
  refine ⟨?_, ?_, ?_, ?_⟩
  · intro sid
    unfold memberCount
    rw [hcc sid]
    split
    · exact length_erase_ge _ _
    · omega
  · intro sid
    unfold memberCount
    rw [hrc sid]
    split
    · exact length_erase_ge _ _
    · split
      · exact length_erase_ge _ _
      · omega
  · intro sid c hc
    rw [hrc sid]
    split
    · exact List.mem_erase_of_ne hc
    · split
      · exact List.mem_erase_of_ne hc
      · exact Iff.rfl
  · intro sid c hc
    rw [hcc sid]
    split
    · exact List.mem_erase_of_ne hc
    · exact Iff.rfl

/-- Witness: the exactly-once teardown effect evaluated at a concrete
reachable state holding one joined connection. -/
theorem teardown_no_double_decrement_witness :
    (∀ sid, memberCount stJoined1 sid - 1 ≤
      memberCount (closeHandler (closeHandler stJoined1 1) 1) sid) ∧
    (∀ sid, memberCount stJoined1 sid - 1 ≤
      memberCount (closeHandler (reaperStep (stJoined1, []) 1).1 1) sid) ∧
    (∀ sid c, c ≠ 1 →
      (c ∈ members (closeHandler (reaperStep (stJoined1, []) 1).1 1) sid ↔
        c ∈ members stJoined1 sid)) ∧
    (∀ sid c, c ≠ 1 →
      (c ∈ members (closeHandler (closeHandler stJoined1 1) 1) sid ↔
        c ∈ members stJoined1 sid)) :=
  teardown_no_double_decrement stJoined1_reachable 1

/-! Lemmas for the cleanup sweep. -/

theorem brokenCond_iff (st : ServerState) (c : Nat) :
    brokenCond st c = true ↔
      ((stateOf st c ≠ WSState.opened ∧ stateOf st c ≠ WSState.connecting) ∨
        c ∉ st.lastActivity) := by
  simp [brokenCond]

theorem brokenCond_mono (acc : ServerState × List Effect) (c c2 : Nat)
    (h : brokenCond acc.1 c = true) : brokenCond (reaperStep acc c2).1 c = true := by
  unfold reaperStep
  split
  · by_cases hc : c2 = c
    · subst hc
      simp only [brokenCond, stateOf]
      simp [mapGet_mapSet_self]
    · rw [brokenCond_iff] at h ⊢
      rcases h with h | h
      · left
        unfold stateOf at h ⊢
        simpa [mapGet_mapSet_ne _ _ _ _ (fun hh : c = c2 => hc hh.symm)] using h
      · right
        intro hmem
        exact h (List.mem_of_mem_erase hmem)
  · exact h

theorem reaperStep_not_mem_members (acc : ServerState × List Effect) (c c2 : Nat)
    (sid : String) (hkeys : (mapKeys acc.1.sessions).Nodup)
    (h : c ∉ members acc.1 sid) : c ∉ members (reaperStep acc c2).1 sid := by
  rw [members_reaperStep acc c2 sid hkeys]
  split
  · intro hmem
    exact h (List.mem_of_mem_erase hmem)
  · exact h

theorem foldl_reaperStep_effects_mono (l : List Nat) (acc : ServerState × List Effect)
    {e : Effect} (he : e ∈ acc.2) : e ∈ (l.foldl reaperStep acc).2 := by
  induction l generalizing acc with
  | nil => exact he
  | cons c rest ih =>
    rw [List.foldl_cons]
    apply ih
    unfold reaperStep
    split
    · simp [he]
    · exact he

theorem foldl_reaperStep_not_mem (l : List Nat) (acc : ServerState × List Effect)
    (c : Nat) (sid : String) (hg : GoodState acc.1) (h : c ∉ members acc.1 sid) :
    c ∉ members (l.foldl reaperStep acc).1 sid := by
  induction l generalizing acc with
  | nil => exact h
  | cons c0 rest ih =>
    rw [List.foldl_cons]
    exact ih _ (reaperStep_goodState hg c0) (reaperStep_not_mem_members acc c c0 sid hg.2.1 h)

theorem foldl_reaperStep_terminates (l : List Nat) (acc : ServerState × List Effect)
    (c : Nat) (hg : GoodState acc.1) (hc : c ∈ l) (hcond : brokenCond acc.1 c = true) :
    Effect.termConn c ∈ (l.foldl reaperStep acc).2 ∧
      ∀ sid, c ∉ members (l.foldl reaperStep acc).1 sid := by
  induction l generalizing acc with
  | nil => simp at hc
  | cons c0 rest ih =>
    rw [List.foldl_cons]
    by_cases hc0 : c0 = c
    · subst hc0
      have hstep : (reaperStep acc c0).2 = acc.2 ++ [Effect.termConn c0] := by
        unfold reaperStep
        rw [if_pos hcond]
      constructor
      · apply foldl_reaperStep_effects_mono
        rw [hstep]
        simp
      · intro sid
        apply foldl_reaperStep_not_mem _ _ _ _ (reaperStep_goodState hg c0)
        rw [members_reaperStep acc c0 sid hg.2.1, if_pos hcond]
        intro hmem
        exact (((members_nodup hg sid).mem_erase_iff).mp hmem).1 rfl
    · have hcr : c ∈ rest := by
        rcases List.mem_cons.mp hc with h | h
        · exact absurd h.symm hc0
        · exact h
      exact ih _ (reaperStep_goodState hg c0) hcr (brokenCond_mono acc c c0 hcond)

/-- Concrete state with one tracked connecting socket holding a liveness
record and a session membership. -/
def stC5 : ServerState :=
  { sessions := [("s", [1])], lastActivity := [1], connSession := [(1, "s")],
    readyState := [(1, WSState.connecting)], clients := [1] }

/-- C5 counterexample: connection 1 is tracked and its readyState is
connecting, hence not open, yet the sweep emits no terminate effect and
leaves the state, including session membership, untouched — refuting the
claim that every tracked connection whose state is not open is
force-terminated and removed from every session. -/
theorem reaper_spares_connecting :
    (1 ∈ stC5.clients ∧ stateOf stC5 1 ≠ WSState.opened ∧ 1 ∈ stC5.lastActivity) ∧
      reaperSweep stC5 = (stC5, []) ∧ 1 ∈ members (reaperSweep stC5).1 "s" := by
  decide

/-- C5 amended: on every sweep, every tracked connection whose state is
neither open nor connecting, or that has no liveness record, is
force-terminated and removed from every session it belongs to. -/
theorem reaper_terminates_broken {st : ServerState} (c : Nat) (hg : GoodState st)
    (hc : c ∈ st.clients)
    (hcond : (stateOf st c ≠ WSState.opened ∧ stateOf st c ≠ WSState.connecting) ∨
      c ∉ st.lastActivity) :
    Effect.termConn c ∈ (reaperSweep st).2 ∧
      ∀ sid, c ∉ members (reaperSweep st).1 sid :=
  foldl_reaperStep_terminates st.clients (st, []) c hg hc ((brokenCond_iff st c).mpr hcond)

/-- Concrete state with a closed socket 1 and an open socket 2 sharing a
session. -/
def stB5 : ServerState :=
  { sessions := [("s", [1, 2])], lastActivity := [2], connSession := [(1, "s"), (2, "s")],
    readyState := [(1, WSState.closed), (2, WSState.opened)], clients := [1, 2] }

/-- Witness: the amended sweep behaviour evaluated on a concrete state with
a closed tracked socket. -/
theorem reaper_terminates_broken_witness :
    Effect.termConn 1 ∈ (reaperSweep stB5).2 ∧
      ∀ sid, 1 ∉ members (reaperSweep stB5).1 sid :=
  reaper_terminates_broken 1
    (by
      constructor
      · intro p hp
        simp [stB5] at hp
        subst hp
        exact ⟨by simp, by simp⟩
      · exact ⟨by simp [stB5, mapKeys], by simp [stB5]⟩)
    (by decide) (Or.inl (by decide))

/-! Dispatch lemmas for the message router. -/

theorem handleMessage_speech_dispatch (cb : Collab) (fail : Nat → Bool) (st : ServerState)
    (ws : Nat) (data : RawData) (sid : String)
    (htype : data.type = some (JVal.str "speech"))
    (hconn : mapGet st.connSession ws = some sid) :
    handleMessage cb fail st ws data =
      handleSpeech cb fail (touchActivity st ws) ws sid data := by
  have hconn2 : mapGet (touchActivity st ws).connSession ws = some sid := hconn
  unfold handleMessage
  rw [htype]
  simp [truthy, hconn2]

theorem handleMessage_continuous_dispatch (cb : Collab) (fail : Nat → Bool)
    (st : ServerState) (ws : Nat) (data : RawData) (sid : String)
    (htype : data.type = some (JVal.str "continuous"))
    (hconn : mapGet st.connSession ws = some sid) :
    handleMessage cb fail st ws data =
      handleContinuous fail (touchActivity st ws) ws sid data := by
  have hconn2 : mapGet (touchActivity st ws).connSession ws = some sid := hconn
  unfold handleMessage
  rw [htype]
  simp [truthy, hconn2]

theorem handleMessage_join_dispatch (cb : Collab) (fail : Nat → Bool) (st : ServerState)
    (ws : Nat) (data : RawData)
    (htype : data.type = some (JVal.str "join")) :
    handleMessage cb fail st ws data = handleJoin fail (touchActivity st ws) ws data := by
  unfold handleMessage
  rw [htype]
  simp [truthy]

/-! Trace lemmas for the speech pipeline. -/

theorem detectStep_effects (cb : Collab) (data : RawData) :
    ∀ e ∈ (detectStep cb data).2, ∃ t, e = Effect.callDetect t := by
  unfold detectStep
  split
  · intro e he; simp at he
  · split <;> (intro e he; simp at he; exact ⟨_, he⟩)

theorem speechPipeline_no_deliver (cb : Collab) (sid : String) (data : RawData) :
    ∀ e ∈ (speechPipeline cb sid data).2, isDeliver e = false := by
  unfold speechPipeline
  intro e he
  dsimp only at he
  rcases hd : detectStep cb data with ⟨dres, deffs⟩
  rw [hd] at he
  have hdet : ∀ e2 ∈ deffs, ∃ t, e2 = Effect.callDetect t := by
    have := detectStep_effects cb data
    rw [hd] at this
    exact this
  cases dres with
  | error e0 =>
    simp at he
    obtain ⟨t, ht⟩ := hdet e he
    subst ht
    rfl
  | ok srcLang =>
    dsimp only at he
    cases ht : cb.translate (data.text.getD JVal.other) srcLang
        (data.targetLanguage.getD JVal.other) with
    | error e0 =>
      rw [ht] at he
      simp at he
      rcases he with he | he
      · obtain ⟨t, h2⟩ := hdet e he
        subst h2
        rfl
      · subst he
        rfl
    | ok translated =>
      rw [ht] at he
      dsimp only at he
      cases hcm : cb.createMessage (speechMessage sid data srcLang translated) with
      | error e0 =>
        rw [hcm] at he
        simp at he
        rcases he with he | he | he
        · obtain ⟨t, h2⟩ := hdet e he
          subst h2
          rfl
        · subst he
          rfl
        · subst he
          rfl
      | ok saved =>
        rw [hcm] at he
        simp at he
        rcases he with he | he | he | he
        · obtain ⟨t, h2⟩ := hdet e he
          subst h2
          rfl
        · subst he
          rfl
        · subst he
          rfl
        · subst he
          rfl

theorem speechPipeline_eq_detect_error (cb : Collab) (sid : String) (data : RawData)
    (e1 : String) (deffs : List Effect)
    (hd : detectStep cb data = (Except.error e1, deffs)) :
    speechPipeline cb sid data = (Except.error e1, deffs) := by
  unfold speechPipeline
  rw [hd]

theorem speechPipeline_eq_translate_error (cb : Collab) (sid : String) (data : RawData)
    (srcLang : JVal) (deffs : List Effect) (e1 : String)
    (hd : detectStep cb data = (Except.ok srcLang, deffs))
    (ht : cb.translate (data.text.getD JVal.other) srcLang
      (data.targetLanguage.getD JVal.other) = Except.error e1) :
    speechPipeline cb sid data =
      (Except.error e1,
       deffs ++ [Effect.callTranslate (data.text.getD JVal.other) srcLang
         (data.targetLanguage.getD JVal.other)]) := by
  unfold speechPipeline
  rw [hd]
  dsimp only
  rw [ht]

theorem speechPipeline_eq_create_error (cb : Collab) (sid : String) (data : RawData)
    (srcLang : JVal) (deffs : List Effect) (translated : String) (e1 : String)
    (hd : detectStep cb data = (Except.ok srcLang, deffs))
    (ht : cb.translate (data.text.getD JVal.other) srcLang
      (data.targetLanguage.getD JVal.other) = Except.ok translated)
    (hcm : cb.createMessage (speechMessage sid data srcLang translated) = Except.error e1) :
    speechPipeline cb sid data =
      (Except.error e1,
       deffs ++ [Effect.callTranslate (data.text.getD JVal.other) srcLang
           (data.targetLanguage.getD JVal.other),
         Effect.callCreateMessage (speechMessage sid data srcLang translated)]) := by
  unfold speechPipeline
  rw [hd]
  dsimp only
  rw [ht]
  dsimp only
  rw [hcm]

theorem speechPipeline_eq_ok (cb : Collab) (sid : String) (data : RawData)
    (srcLang : JVal) (deffs : List Effect) (translated : String) (saved : Message)
    (hd : detectStep cb data = (Except.ok srcLang, deffs))
    (ht : cb.translate (data.text.getD JVal.other) srcLang
      (data.targetLanguage.getD JVal.other) = Except.ok translated)
    (hcm : cb.createMessage (speechMessage sid data srcLang translated) = Except.ok saved) :
    speechPipeline cb sid data =
      (Except.ok saved,
       deffs ++ [Effect.callTranslate (data.text.getD JVal.other) srcLang
           (data.targetLanguage.getD JVal.other),
         Effect.callCreateMessage (speechMessage sid data srcLang translated),
         Effect.persistOk saved]) := by
  unfold speechPipeline
  rw [hd]
  dsimp only
  rw [ht]
  dsimp only
  rw [hcm]

theorem speechPipeline_error_no_persist (cb : Collab) (sid : String) (data : RawData)
    (e0 : String) (h : (speechPipeline cb sid data).1 = Except.error e0) :
    ∀ m, Effect.persistOk m ∉ (speechPipeline cb sid data).2 := by
  intro m
  rcases hd : detectStep cb data with ⟨dres, deffs⟩
  have hdet : ∀ e2 ∈ deffs, ∃ t, e2 = Effect.callDetect t := by
    have := detectStep_effects cb data
    rw [hd] at this
    exact this
  cases dres with
  | error e1 =>
    rw [speechPipeline_eq_detect_error cb sid data e1 deffs hd]
    intro hmem
    obtain ⟨t, h2⟩ := hdet _ hmem
    exact Effect.noConfusion h2
  | ok srcLang =>
    cases ht : cb.translate (data.text.getD JVal.other) srcLang
        (data.targetLanguage.getD JVal.other) with
    | error e1 =>
      rw [speechPipeline_eq_translate_error cb sid data srcLang deffs e1 hd ht]
      intro hmem
      rcases List.mem_append.mp hmem with hmem | hmem
      · obtain ⟨t, h2⟩ := hdet _ hmem
        exact Effect.noConfusion h2
      · rcases List.mem_cons.mp hmem with hmem | hmem
        · exact Effect.noConfusion hmem
        · simp at hmem
    | ok translated =>
      cases hcm : cb.createMessage (speechMessage sid data srcLang translated) with
      | error e1 =>
        rw [speechPipeline_eq_create_error cb sid data srcLang deffs translated e1 hd ht hcm]
        intro hmem
        rcases List.mem_append.mp hmem with hmem | hmem
        · obtain ⟨t, h2⟩ := hdet _ hmem
          exact Effect.noConfusion h2
        · rcases List.mem_cons.mp hmem with hmem | hmem
          · exact Effect.noConfusion hmem
          · rcases List.mem_cons.mp hmem with hmem | hmem
            · exact Effect.noConfusion hmem
            · simp at hmem
      | ok saved =>
        rw [speechPipeline_eq_ok cb sid data srcLang deffs translated saved hd ht hcm] at h
        simp at h

/-- C1: given a session whose N joined members are all open, a valid speech
event from one of them whose detect, translate and persist steps succeed
results in exactly N translation events, one delivered to each member
including the sender, every one carrying the identical saved message. -/
theorem speech_broadcast_fanout (cb : Collab) (fail : Nat → Bool) (st : ServerState)
    (ws : Nat) (sid : String) (cs : List Nat) (data : RawData) (saved : Message)
    (htype : data.type = some (JVal.str "speech"))
    (hconn : mapGet st.connSession ws = some sid)
    (hsess : mapGet st.sessions sid = some cs)
    (hmem : ws ∈ cs)
    (hopen : ∀ c ∈ cs, stateOf st c = WSState.opened)
    (hfail : ∀ c ∈ cs, fail c = false)
    (htext : truthy data.text = true)
    (hspeaker : isNum data.speakerId = true)
    (htarget : truthy data.targetLanguage = true)
    (hpipe : (speechPipeline cb sid data).1 = Except.ok saved) :
    (handleMessage cb fail st ws data).2.filter isDeliver =
      cs.map (fun c => Effect.deliver c (OutMsg.translation saved)) := by
  rw [handleMessage_speech_dispatch cb fail st ws data sid htype hconn]
  have hsp : speechPipeline cb sid data =
      (Except.ok saved, (speechPipeline cb sid data).2) := by
    rw [← hpipe]
  have hcond : (!truthy data.text || !isNum data.speakerId ||
      !truthy data.targetLanguage) = false := by
    rw [htext, hspeaker, htarget]
    rfl
  have hsess2 : mapGet (touchActivity st ws).sessions sid = some cs := hsess
  have hopen2 : ∀ c ∈ cs, stateOf (touchActivity st ws) c = WSState.opened := hopen
  have hnil : ¬ cs = [] := List.ne_nil_of_mem hmem
  unfold handleSpeech
  simp only [hcond, Bool.false_eq_true, if_false]
  rw [hsp]
  dsimp only
  rw [hsess2]
  dsimp only
  rw [if_neg hnil]
  unfold broadcastToSession
  rw [hsess2]
  dsimp only
  rw [foldl_broadcastStep_all_open cs fail (OutMsg.translation saved)
    (touchActivity st ws) [] hopen2 hfail]
  dsimp only
  rw [List.filter_append,
      List.filter_eq_nil_iff.mpr (fun a ha => by
        simp [speechPipeline_no_deliver cb sid data a ha]),
      List.filter_eq_self.mpr (fun a ha => by
        obtain ⟨c, hc, hac⟩ := List.mem_map.mp ha
        subst hac
        rfl)]
  simp

/-- Concrete two-member session state with both sockets open. -/
def stPair : ServerState :=
  { sessions := [("s", [1, 2])], lastActivity := [1, 2],
    connSession := [(1, "s"), (2, "s")],
    readyState := [(1, WSState.opened), (2, WSState.opened)], clients := [1, 2] }

/-- Concrete valid speech message. -/
def speechDataW : RawData :=
  { type := some (JVal.str "speech"), text := some (JVal.str "hi"),
    speakerId := some (JVal.num 7), targetLanguage := some (JVal.str "es") }

/-- Saved message produced by the trivial collaborators on speechDataW. -/
def savedW : Message :=
  { sessionId := "s", speakerId := 7, originalText := JVal.str "hi",
    translatedText := "hola", originalLanguage := JVal.str "en",
    targetLanguage := JVal.str "es" }

/-- Witness: the broadcast fan-out evaluated on a concrete two-member open
session, yielding one translation delivery per member. -/
theorem speech_broadcast_fanout_witness :
    (handleMessage cbW failFalse stPair 1 speechDataW).2.filter isDeliver =
      [1, 2].map (fun c => Effect.deliver c (OutMsg.translation savedW)) :=
  speech_broadcast_fanout cbW failFalse stPair 1 "s" [1, 2] speechDataW savedW
    (by rfl) (by rfl) (by rfl) (by decide)
    (by decide) (by decide) (by rfl) (by rfl) (by rfl) (by rfl)

theorem safeWSend_effects (fail : Nat → Bool) (st : ServerState) (c : Nat) (m : OutMsg) :
    ∀ e ∈ (safeWSend fail st c m).2, e = Effect.deliver c m ∨ e = Effect.closeConn c := by
  unfold safeWSend
  split
  · split
    · intro e he
      simp at he
      right
      exact he
    · intro e he
      simp at he
      left
      exact he
  · intro e he
    simp at he

theorem broadcastToSession_effects (fail : Nat → Bool) (st : ServerState) (sid : String)
    (m : OutMsg) :
    ∀ e ∈ (broadcastToSession fail st sid m).2,
      (∃ c, e = Effect.deliver c m) ∨ (∃ c, e = Effect.closeConn c) := by
  unfold broadcastToSession
  split
  · intro e he
    simp at he
  · intro e he
    rcases foldl_broadcastStep_effects_shape _ _ _ _ e he with h | h
    · simp at h
    · exact h

/-- C3: when a step of the speech pipeline of a joined open sender raises,
the sender receives exactly one error event and nobody else receives
anything, nothing is persisted, and the registry, join assignments and
socket states are unchanged. -/
theorem speech_failure_isolation (cb : Collab) (fail : Nat → Bool) (st : ServerState)
    (ws : Nat) (sid : String) (data : RawData) (e0 : String)
    (htype : data.type = some (JVal.str "speech"))
    (hconn : mapGet st.connSession ws = some sid)
    (htext : truthy data.text = true)
    (hspeaker : isNum data.speakerId = true)
    (htarget : truthy data.targetLanguage = true)
    (hpipe : (speechPipeline cb sid data).1 = Except.error e0)
    (hopen : stateOf st ws = WSState.opened)
    (hfail : fail ws = false) :
    (handleMessage cb fail st ws data).2.filter isDeliver =
      [Effect.deliver ws (OutMsg.errorMsg ("Failed to process speech: " ++ e0))] ∧
    (∀ m : Message, Effect.persistOk m ∉ (handleMessage cb fail st ws data).2) ∧
    (handleMessage cb fail st ws data).1.sessions = st.sessions ∧
    (handleMessage cb fail st ws data).1.connSession = st.connSession ∧
    (handleMessage cb fail st ws data).1.readyState = st.readyState := by
  rw [handleMessage_speech_dispatch cb fail st ws data sid htype hconn]
  have hsp : speechPipeline cb sid data =
      (Except.error e0, (speechPipeline cb sid data).2) := by
    rw [← hpipe]
  have hcond : (!truthy data.text || !isNum data.speakerId ||
      !truthy data.targetLanguage) = false := by
    rw [htext, hspeaker, htarget]
    rfl
  have hopen2 : stateOf (touchActivity st ws) ws = WSState.opened := hopen
  unfold handleSpeech
  simp only [hcond, Bool.false_eq_true, if_false]
  rw [hsp]
  dsimp only
  rw [safeWSend_open_ok _ hopen2 hfail]
  dsimp only
  refine ⟨?_, ?_, rfl, rfl, rfl⟩
  · rw [List.filter_append,
        List.filter_eq_nil_iff.mpr (fun a ha => by
          simp [speechPipeline_no_deliver cb sid data a ha])]
    rfl
  · intro m hmem
    rcases List.mem_append.mp hmem with hmem | hmem
    · exact speechPipeline_error_no_persist cb sid data e0 hpipe m hmem
    · rcases List.mem_cons.mp hmem with hmem | hmem
      · exact Effect.noConfusion hmem
      · simp at hmem

/-- Collaborators whose translation step always raises, used by witnesses. -/
def cbBoom : Collab :=
  { detect := fun _ => Except.ok "en"
    translate := fun _ _ _ => Except.error "boom"
    createMessage := fun m => Except.ok m }

/-- Witness: the failure isolation evaluated on a concrete two-member open
session with a raising translation collaborator. -/
theorem speech_failure_isolation_witness :
    (handleMessage cbBoom failFalse stPair 1 speechDataW).2.filter isDeliver =
      [Effect.deliver 1 (OutMsg.errorMsg ("Failed to process speech: " ++ "boom"))] ∧
    (∀ m : Message, Effect.persistOk m ∉ (handleMessage cbBoom failFalse stPair 1 speechDataW).2) ∧
    (handleMessage cbBoom failFalse stPair 1 speechDataW).1.sessions = stPair.sessions ∧
    (handleMessage cbBoom failFalse stPair 1 speechDataW).1.connSession = stPair.connSession ∧
    (handleMessage cbBoom failFalse stPair 1 speechDataW).1.readyState = stPair.readyState :=
  speech_failure_isolation cbBoom failFalse stPair 1 "s" speechDataW "boom"
    (by rfl) (by rfl) (by rfl) (by rfl) (by rfl) (by rfl) (by decide) (by rfl)

/-- C7: an invalid speech event from a joined open connection produces
exactly one error event, delivered to the sender; every other connection
receives nothing, and neither the registry, the join assignments nor any
socket state changes. -/
theorem invalid_speech_isolation (cb : Collab) (fail : Nat → Bool) (st : ServerState)
    (ws : Nat) (sid : String) (data : RawData)
    (htype : data.type = some (JVal.str "speech"))
    (hconn : mapGet st.connSession ws = some sid)
    (hinvalid : (!truthy data.text || !isNum data.speakerId ||
      !truthy data.targetLanguage) = true)
    (hopen : stateOf st ws = WSState.opened)
    (hfail : fail ws = false) :
    (handleMessage cb fail st ws data).2 =
      [Effect.deliver ws (OutMsg.errorMsg "Missing required fields for speech message")] ∧
    (∀ c : Nat, c ≠ ws → ∀ om : OutMsg,
      Effect.deliver c om ∉ (handleMessage cb fail st ws data).2) ∧
    (handleMessage cb fail st ws data).1.sessions = st.sessions ∧
    (handleMessage cb fail st ws data).1.connSession = st.connSession ∧
    (handleMessage cb fail st ws data).1.readyState = st.readyState := by
  rw [handleMessage_speech_dispatch cb fail st ws data sid htype hconn]
  have hopen2 : stateOf (touchActivity st ws) ws = WSState.opened := hopen
  unfold handleSpeech
  simp only [hinvalid, if_true]
  rw [safeWSend_open_ok _ hopen2 hfail]
  refine ⟨rfl, ?_, rfl, rfl, rfl⟩
  intro c hc om hmem
  rcases List.mem_cons.mp hmem with hmem | hmem
  · injection hmem with h1 h2
    exact hc h1
  · simp at hmem

/-- Concrete speech message with a missing targetLanguage. -/
def speechDataBad : RawData :=
  { type := some (JVal.str "speech"), text := some (JVal.str "hi"),
    speakerId := some (JVal.num 7) }

/-- Witness: the sender-only error isolation for an invalid speech event
evaluated on a concrete two-member open session. -/
theorem invalid_speech_isolation_witness :
    (handleMessage cbW failFalse stPair 1 speechDataBad).2 =
      [Effect.deliver 1 (OutMsg.errorMsg "Missing required fields for speech message")] ∧
    (∀ c : Nat, c ≠ 1 → ∀ om : OutMsg,
      Effect.deliver c om ∉ (handleMessage cbW failFalse stPair 1 speechDataBad).2) ∧
    (handleMessage cbW failFalse stPair 1 speechDataBad).1.sessions = stPair.sessions ∧
    (handleMessage cbW failFalse stPair 1 speechDataBad).1.connSession = stPair.connSession ∧
    (handleMessage cbW failFalse stPair 1 speechDataBad).1.readyState = stPair.readyState :=
  invalid_speech_isolation cbW failFalse stPair 1 "s" speechDataBad
    (by rfl) (by rfl) (by rfl) (by rfl) (by rfl)

/-- C6: a continuous event from a joined connection never calls the storage
collaborator nor the translation or detection collaborator and never
produces a translation event; on valid input, every delivered event is the
interim broadcast of the submitted text, so the stored history is
unchanged. -/
theorem continuous_purity (cb : Collab) (fail : Nat → Bool) (st : ServerState)
    (ws : Nat) (sid : String) (data : RawData)
    (htype : data.type = some (JVal.str "continuous"))
    (hconn : mapGet st.connSession ws = some sid) :
    (∀ t, Effect.callDetect t ∉ (handleMessage cb fail st ws data).2) ∧
    (∀ t s tg, Effect.callTranslate t s tg ∉ (handleMessage cb fail st ws data).2) ∧
    (∀ m : Message, Effect.callCreateMessage m ∉ (handleMessage cb fail st ws data).2 ∧
      Effect.persistOk m ∉ (handleMessage cb fail st ws data).2) ∧
    (∀ c m, Effect.deliver c (OutMsg.translation m) ∉ (handleMessage cb fail st ws data).2) ∧
    ((!truthy data.interimText || !isNum data.finalSpeakerId ||
        !truthy data.targetLang) = false →
      ∀ c om, Effect.deliver c om ∈ (handleMessage cb fail st ws data).2 →
        om = OutMsg.interim (getNum data.finalSpeakerId) (data.interimText.getD JVal.other)) := by
  rw [handleMessage_continuous_dispatch cb fail st ws data sid htype hconn]
  unfold handleContinuous
  split
  · rename_i hcond
    have hshape := safeWSend_effects fail (touchActivity st ws) ws
      (OutMsg.errorMsg "Missing required fields for continuous message")
    refine ⟨?_, ?_, ?_, ?_, ?_⟩
    · intro t hmem
      rcases hshape _ hmem with h | h <;> exact Effect.noConfusion h
    · intro t s tg hmem
      rcases hshape _ hmem with h | h <;> exact Effect.noConfusion h
    · intro m
      constructor
      · intro hmem
        rcases hshape _ hmem with h | h <;> exact Effect.noConfusion h
      · intro hmem
        rcases hshape _ hmem with h | h <;> exact Effect.noConfusion h
    · intro c m hmem
      rcases hshape _ hmem with h | h
      · injection h with h1 h2
        exact OutMsg.noConfusion h2
      · exact Effect.noConfusion h
    · intro hvalid
      rw [hvalid] at hcond
      exact absurd hcond (by simp)
  · have hshape := broadcastToSession_effects fail (touchActivity st ws) sid
      (OutMsg.interim (getNum data.finalSpeakerId) (data.interimText.getD JVal.other))
    refine ⟨?_, ?_, ?_, ?_, ?_⟩
    · intro t hmem
      rcases hshape _ hmem with ⟨c, h⟩ | ⟨c, h⟩ <;> exact Effect.noConfusion h
    · intro t s tg hmem
      rcases hshape _ hmem with ⟨c, h⟩ | ⟨c, h⟩ <;> exact Effect.noConfusion h
    · intro m
      constructor
      · intro hmem
        rcases hshape _ hmem with ⟨c, h⟩ | ⟨c, h⟩ <;> exact Effect.noConfusion h
      · intro hmem
        rcases hshape _ hmem with ⟨c, h⟩ | ⟨c, h⟩ <;> exact Effect.noConfusion h
    · intro c m hmem
      rcases hshape _ hmem with ⟨c2, h⟩ | ⟨c2, h⟩
      · injection h with h1 h2
        exact OutMsg.noConfusion h2
      · exact Effect.noConfusion h
    · intro hvalid c om hmem
      rcases hshape _ hmem with ⟨c2, h⟩ | ⟨c2, h⟩
      · injection h with h1 h2
        try exact h2
      · exact Effect.noConfusion h

/-- Concrete valid continuous message. -/
def continuousDataW : RawData :=
  { type := some (JVal.str "continuous"), interimText := some (JVal.str "par"),
    finalSpeakerId := some (JVal.num 3), targetLang := some (JVal.str "fr") }

/-- Witness: continuous-path purity evaluated on a concrete two-member open
session. -/
theorem continuous_purity_witness :
    (∀ t, Effect.callDetect t ∉ (handleMessage cbW failFalse stPair 1 continuousDataW).2) ∧
    (∀ t s tg, Effect.callTranslate t s tg ∉
      (handleMessage cbW failFalse stPair 1 continuousDataW).2) ∧
    (∀ m : Message,
      Effect.callCreateMessage m ∉ (handleMessage cbW failFalse stPair 1 continuousDataW).2 ∧
      Effect.persistOk m ∉ (handleMessage cbW failFalse stPair 1 continuousDataW).2) ∧
    (∀ c m, Effect.deliver c (OutMsg.translation m) ∉
      (handleMessage cbW failFalse stPair 1 continuousDataW).2) ∧
    ((!truthy continuousDataW.interimText || !isNum continuousDataW.finalSpeakerId ||
        !truthy continuousDataW.targetLang) = false →
      ∀ c om, Effect.deliver c om ∈ (handleMessage cbW failFalse stPair 1 continuousDataW).2 →
        om = OutMsg.interim (getNum continuousDataW.finalSpeakerId)
          (continuousDataW.interimText.getD JVal.other)) :=
  continuous_purity cbW failFalse stPair 1 "s" continuousDataW (by rfl) (by rfl)

/-- Registration result of a join for a connection already in the member
set: the whole server state is returned unchanged and the acknowledgement
is still sent. -/
theorem handleJoin_already_member (fail : Nat → Bool) (st : ServerState) (ws : Nat)
    (sid : String) (data : RawData)
    (hsid : data.sessionId = some (JVal.str sid)) (hne : sid ≠ "")
    (hmem : ws ∈ members st sid) (hconn : mapGet st.connSession ws = some sid)
    (hopen : stateOf st ws = WSState.opened) (hfail : fail ws = false) :
    handleJoin fail st ws data = (st, [Effect.deliver ws (OutMsg.joinAck sid)]) := by
  have hcs : mapGet st.sessions sid = some (members st sid) := by
    unfold members at hmem ⊢
    cases h : mapGet st.sessions sid with
    | none =>
      rw [h] at hmem
      simp at hmem
    | some cs => simp
  unfold handleJoin
  rw [hsid]
  have hcond : (!truthy (some (JVal.str sid)) || !isStr (some (JVal.str sid))) = false := by
    simp [truthy, isStr, hne]
  simp only [hcond, Bool.false_eq_true, if_false]
  dsimp only [getStr]
  rw [mapSet_eq_self st.connSession ws sid hconn, setAdd_of_mem hmem,
      mapSet_eq_self st.sessions sid (members st sid) hcs]
  exact safeWSend_open_ok _ hopen hfail

/-- C8: a second join to the same session from the same connection is a
registry no-op: the member count is unchanged, the registry and the join
assignment are untouched, and the acknowledgement is still sent. -/
theorem join_idempotent (cb : Collab) (fail : Nat → Bool) (st : ServerState)
    (ws : Nat) (sid : String) (data : RawData)
    (htype : data.type = some (JVal.str "join"))
    (hsid : data.sessionId = some (JVal.str sid)) (hne : sid ≠ "")
    (hmem : ws ∈ members st sid) (hconn : mapGet st.connSession ws = some sid)
    (hopen : stateOf st ws = WSState.opened) (hfail : fail ws = false) :
    (handleMessage cb fail st ws data).1.sessions = st.sessions ∧
    memberCount (handleMessage cb fail st ws data).1 sid = memberCount st sid ∧
    (handleMessage cb fail st ws data).1.connSession = st.connSession ∧
    (handleMessage cb fail st ws data).2 = [Effect.deliver ws (OutMsg.joinAck sid)] := by
  rw [handleMessage_join_dispatch cb fail st ws data htype,
      handleJoin_already_member fail (touchActivity st ws) ws sid data hsid hne hmem
        hconn hopen hfail]
  exact ⟨rfl, rfl, rfl, rfl⟩

/-- Witness: join idempotence evaluated on a concrete state in which
connection 1 is already a member of session s. -/
theorem join_idempotent_witness :
    (handleMessage cbW failFalse stPair 1 joinDataS).1.sessions = stPair.sessions ∧
    memberCount (handleMessage cbW failFalse stPair 1 joinDataS).1 "s" =
      memberCount stPair "s" ∧
    (handleMessage cbW failFalse stPair 1 joinDataS).1.connSession = stPair.connSession ∧
    (handleMessage cbW failFalse stPair 1 joinDataS).2 =
      [Effect.deliver 1 (OutMsg.joinAck "s")] :=
  join_idempotent cbW failFalse stPair 1 "s" joinDataS
    (by rfl) (by rfl) (by decide) (by decide) (by rfl) (by rfl) (by rfl)

/-- C9: a broadcast never mutates the registry; every open member with a
working socket receives the payload regardless of other members' failures;
an open member whose send raises is force-closed; a member not in the open
state is silently skipped, receiving no delivery and no close; and the
broadcaster is a total function, raising nothing to its caller. -/
theorem broadcast_isolation (fail : Nat → Bool) (st : ServerState) (sid : String)
    (m : OutMsg) :
    (broadcastToSession fail st sid m).1.sessions = st.sessions ∧
    (∀ c ∈ members st sid, stateOf st c = WSState.opened → fail c = false →
      Effect.deliver c m ∈ (broadcastToSession fail st sid m).2) ∧
    (∀ c ∈ members st sid, stateOf st c = WSState.opened → fail c = true →
      Effect.closeConn c ∈ (broadcastToSession fail st sid m).2) ∧
    (∀ c : Nat, stateOf st c ≠ WSState.opened →
      (∀ om, Effect.deliver c om ∉ (broadcastToSession fail st sid m).2) ∧
        Effect.closeConn c ∉ (broadcastToSession fail st sid m).2) := by
  refine ⟨broadcastToSession_sessions fail st sid m, ?_, ?_, ?_⟩
  · intro c hc hopen hfail
    unfold broadcastToSession
    cases hss : mapGet st.sessions sid with
    | none =>
      unfold members at hc
      rw [hss] at hc
      simp at hc
    | some cs =>
      have hc2 : c ∈ cs := by
        unfold members at hc
        rw [hss] at hc
        exact hc
      exact broadcast_deliver_of_open cs fail m (st, []) c hc2 hopen hfail
  · intro c hc hopen hfail
    unfold broadcastToSession
    cases hss : mapGet st.sessions sid with
    | none =>
      unfold members at hc
      rw [hss] at hc
      simp at hc
    | some cs =>
      have hc2 : c ∈ cs := by
        unfold members at hc
        rw [hss] at hc
        exact hc
      exact broadcast_close_of_fail cs fail m (st, []) c hc2 hopen hfail
  · intro c hstc
    unfold broadcastToSession
    cases hss : mapGet st.sessions sid with
    | none => exact ⟨fun om hmem => by simp at hmem, by simp⟩
    | some cs =>
      exact broadcast_skip_of_not_open cs fail m (st, []) c hstc
        (fun om => by simp) (by simp)

/-- Concrete three-member session: 1 and 2 open, 3 closed. -/
def stTri : ServerState :=
  { sessions := [("s", [1, 2, 3])], lastActivity := [1, 2, 3],
    connSession := [(1, "s"), (2, "s"), (3, "s")],
    readyState := [(1, WSState.opened), (2, WSState.opened), (3, WSState.closed)],
    clients := [1, 2, 3] }

/-- Failure injection that fails the send on connection 2 only. -/
def failTwo : Nat → Bool := fun c => c == 2

/-- Witness: broadcast isolation evaluated on a concrete session where the
send to member 2 raises and member 3 is closed, while member 1 is still
served and the registry is untouched. -/
theorem broadcast_isolation_witness :
    Effect.deliver 1 (OutMsg.pong none) ∈
      (broadcastToSession failTwo stTri "s" (OutMsg.pong none)).2 ∧
    Effect.closeConn 2 ∈ (broadcastToSession failTwo stTri "s" (OutMsg.pong none)).2 ∧
    (∀ om, Effect.deliver 3 om ∉
      (broadcastToSession failTwo stTri "s" (OutMsg.pong none)).2) ∧
    (broadcastToSession failTwo stTri "s" (OutMsg.pong none)).1.sessions =
      stTri.sessions :=
  have h := broadcast_isolation failTwo stTri "s" (OutMsg.pong none)
  ⟨h.2.1 1 (by decide) (by rfl) (by rfl),
   h.2.2.1 2 (by decide) (by rfl) (by rfl),
   (h.2.2.2 3 (by decide)).1,
   h.1⟩

/-- Join message carrying the given session id. -/
def joinMsg (sid : String) : RawData :=
  { type := some (JVal.str "join"), sessionId := some (JVal.str sid) }

theorem handleJoin_valid_state (fail : Nat → Bool) (st : ServerState) (ws : Nat)
    (sid : String) (hne : sid ≠ "") :
    (handleJoin fail st ws (joinMsg sid)).1.sessions =
        mapSet st.sessions sid (setAdd (members st sid) ws) ∧
      (handleJoin fail st ws (joinMsg sid)).1.connSession =
        mapSet st.connSession ws sid := by
  unfold handleJoin
  have hcond : (!truthy (joinMsg sid).sessionId || !isStr (joinMsg sid).sessionId) = false := by
    simp [joinMsg, truthy, isStr, hne]
  simp only [hcond, Bool.false_eq_true, if_false]
  constructor
  · rw [safeWSend_sessions]
    simp [joinMsg, getStr]
  · rw [safeWSend_connSession]
    simp [joinMsg, getStr]

/-- C10: after joining session s1 and then a different session s2, the
connection is a member of both sessions, and the subsequent close removes
it only from s2 (the most recently joined session), leaving the stale s1
membership in place. -/
theorem rejoin_leaves_stale_membership (cb : Collab) (fail : Nat → Bool)
    (st : ServerState) (ws : Nat) (s1 s2 : String)
    (h12 : s1 ≠ s2) (h1ne : s1 ≠ "") (h2ne : s2 ≠ "")
    (hnd2 : (members st s2).Nodup) :
    ws ∈ members (handleMessage cb fail
        (handleMessage cb fail st ws (joinMsg s1)).1 ws (joinMsg s2)).1 s1 ∧
    ws ∈ members (handleMessage cb fail
        (handleMessage cb fail st ws (joinMsg s1)).1 ws (joinMsg s2)).1 s2 ∧
    members (closeHandler (handleMessage cb fail
        (handleMessage cb fail st ws (joinMsg s1)).1 ws (joinMsg s2)).1 ws) s1 =
      members (handleMessage cb fail
        (handleMessage cb fail st ws (joinMsg s1)).1 ws (joinMsg s2)).1 s1 ∧
    ws ∉ members (closeHandler (handleMessage cb fail
        (handleMessage cb fail st ws (joinMsg s1)).1 ws (joinMsg s2)).1 ws) s2 := by
  have h21 : s2 ≠ s1 := fun hh => h12 hh.symm
  set st1 := (handleMessage cb fail st ws (joinMsg s1)).1 with hdef1
  set st2 := (handleMessage cb fail st1 ws (joinMsg s2)).1 with hdef2
  have hs1 : st1.sessions = mapSet st.sessions s1 (setAdd (members st s1) ws) := by
    rw [hdef1, handleMessage_join_dispatch cb fail st ws (joinMsg s1) (by rfl)]
    exact (handleJoin_valid_state fail (touchActivity st ws) ws s1 h1ne).1
  have hc1 : st1.connSession = mapSet st.connSession ws s1 := by
    rw [hdef1, handleMessage_join_dispatch cb fail st ws (joinMsg s1) (by rfl)]
    exact (handleJoin_valid_state fail (touchActivity st ws) ws s1 h1ne).2
  have hs2 : st2.sessions = mapSet st1.sessions s2 (setAdd (members st1 s2) ws) := by
    rw [hdef2, handleMessage_join_dispatch cb fail st1 ws (joinMsg s2) (by rfl)]
    exact (handleJoin_valid_state fail (touchActivity st1 ws) ws s2 h2ne).1
  have hc2 : st2.connSession = mapSet st1.connSession ws s2 := by
    rw [hdef2, handleMessage_join_dispatch cb fail st1 ws (joinMsg s2) (by rfl)]
    exact (handleJoin_valid_state fail (touchActivity st1 ws) ws s2 h2ne).2
  have hm11 : members st1 s1 = setAdd (members st s1) ws := by
    unfold members
    rw [hs1, mapGet_mapSet_self]
    rfl
  have hm12 : members st1 s2 = members st s2 := by
    unfold members
    rw [hs1, mapGet_mapSet_ne st.sessions s1 s2 _ h21]
  have hm21 : members st2 s1 = members st1 s1 := by
    unfold members
    rw [hs2, mapGet_mapSet_ne st1.sessions s2 s1 _ h12]
  have hm22 : members st2 s2 = setAdd (members st1 s2) ws := by
    unfold members
    rw [hs2, mapGet_mapSet_self]
    rfl
  have hcs2 : mapGet st2.connSession ws = some s2 := by
    rw [hc2, mapGet_mapSet_self]
  refine ⟨?_, ?_, ?_, ?_⟩
  · rw [hm21, hm11]
    exact mem_setAdd_self _ _
  · rw [hm22, hm12]
    exact mem_setAdd_self _ _
  · rw [members_closeHandler st2 ws s1, hcs2, if_neg (by simp [h21])]
  · rw [members_closeHandler st2 ws s2, hcs2, if_pos rfl]
    intro hmem
    have hnd : (members st2 s2).Nodup := by
      rw [hm22, hm12]
      exact setAdd_nodup hnd2
    exact ((hnd.mem_erase_iff).mp hmem).1 rfl

/-- Witness: the stale-membership behaviour of a double join evaluated from
the empty startup state. -/
theorem rejoin_leaves_stale_membership_witness :
    1 ∈ members (handleMessage cbW failFalse
        (handleMessage cbW failFalse initState 1 (joinMsg "a")).1 1 (joinMsg "b")).1 "a" ∧
    1 ∈ members (handleMessage cbW failFalse
        (handleMessage cbW failFalse initState 1 (joinMsg "a")).1 1 (joinMsg "b")).1 "b" ∧
    members (closeHandler (handleMessage cbW failFalse
        (handleMessage cbW failFalse initState 1 (joinMsg "a")).1 1 (joinMsg "b")).1 1) "a" =
      members (handleMessage cbW failFalse
        (handleMessage cbW failFalse initState 1 (joinMsg "a")).1 1 (joinMsg "b")).1 "a" ∧
    1 ∉ members (closeHandler (handleMessage cbW failFalse
        (handleMessage cbW failFalse initState 1 (joinMsg "a")).1 1 (joinMsg "b")).1 1) "b" :=
  rejoin_leaves_stale_membership cbW failFalse initState 1 "a" "b"
    (by decide) (by decide) (by decide) (by decide)

end BotInterpreter
